import Mathlib

/-!
# Maistra/istio: the per-namespace lister informer (`pkg/listwatch/listinformer.go`)

A shallow embedding of `listerInformer`: the adapter that turns the
`OnAdd` / `OnUpdate` / `OnDelete` callbacks of one namespace's shared informer
into watch events for an aggregating cache, and that can be drained or stopped.

Conventions of the embedding

* A Go channel that is only ever closed is a `Bool`: `true` means closed.
  `close` on a closed channel panics in Go; a panic is the result `none`.
* A `sync.Once` is a `Bool`: `true` means `Do` has already run its function.
* The consumer callbacks (`events`, `drained`) and the two `close` calls are
  recorded, in program order, in the field `trace`.
* `drain` starts a goroutine.  The call itself (`drain`) and the goroutine body
  (`drainGoroutine`) are separate functions; the number of goroutines started
  and not yet run is the field `pendingDrains`.
* The section of `drain` that runs under `li.lock` is one atomic function.
-/

namespace listwatch

/-- The event kinds of `watch.EventType`. -/
inductive EventType where
  | Added
  | Modified
  | Deleted
  | Bookmark
  | Error
  deriving DecidableEq, Repr

/-- A `watch.Event`: the pair of an event kind and a `runtime.Object`. -/
structure Event (Obj : Type) where
  Type_ : EventType
  Object : Obj
  deriving DecidableEq, Repr

/-- A Go value of static type `interface{}` as `newWatchEvent` sees it:
a value implementing `runtime.Object`, a `cache.DeletedFinalStateUnknown`
struct (key and wrapped `interface{}` value), or any other value (`nil`
included); `tag` only tells such values apart. -/
inductive Value (Obj : Type) where
  | object (x : Obj)
  | tombstone (key : String) (obj : Value Obj)
  | other (tag : Nat)
  deriving DecidableEq, Repr

/-- The two lifecycle channels of a `listerInformer`. -/
inductive Chan where
  | stoppedInformer
  | listerHasStopped
  deriving DecidableEq, Repr

/-- What the adapter does to the outside world, in program order. -/
inductive Effect (Obj : Type) where
  /-- The call `li.events(stopCh, event)`. -/
  | events (stopCh : Chan) (event : Event Obj)
  /-- The call `li.drained(namespace)`. -/
  | drained (ns : String)
  /-- The call `close(ch)`. -/
  | close (ch : Chan)
  deriving DecidableEq, Repr

/-- Modelled from the spec: `listLenListerWatcher` (its file is not among the
sources).  Spec 4.1: it records how many items the bulk fetch returned
(`recordedCount`) and counts the Added events forwarded
(`incrementForwardedAdd`). -/
structure listLenListerWatcher where
  listCount : Nat
  addCount : Nat
  deriving DecidableEq, Repr

/-- Modelled from the spec: `listLenListerWatcher.incAddCount`, the spec's
`incrementForwardedAdd()`: the counter goes up by one. -/
def listLenListerWatcher.incAddCount (l : listLenListerWatcher) : listLenListerWatcher :=
  { l with addCount := l.addCount + 1 }

/-- Modelled from the spec: `listLenListerWatcher.hasReachedListCount`, the
spec's `forwarded_add_count >= recordedCount()`. -/
def listLenListerWatcher.hasReachedListCount (l : listLenListerWatcher) : Bool :=
  decide (l.listCount ≤ l.addCount)

/-- The struct `listerInformer`.  `store` is what `li.informer.GetStore().List()`
returns, a `[]interface{}`, and `informerHasSynced` what
`li.informer.HasSynced()` returns; both belong to the shared informer.  The
fields `events` and `drained` are the consumer callbacks; calls of them are
recorded in `trace`. -/
structure listerInformer (Obj : Type) where
  namespace_ : String
  store : List (Value Obj)
  informerHasSynced : Bool
  lllw : listLenListerWatcher
  stoppedInformer : Bool
  stopInformerOnce : Bool
  listerHasStopped : Bool
  stopListerOnce : Bool
  draining : Bool
  pendingDrains : Nat
  trace : List (Effect Obj)
  deriving DecidableEq, Repr

variable {Obj : Type}

/-- `newListerInformer`: both channels open, nothing drained, an empty store;
the list count is recorded by the informer later. -/
def newListerInformer (ns : String) : listerInformer Obj :=
  { namespace_ := ns
    store := []
    informerHasSynced := false
    lllw := { listCount := 0, addCount := 0 }
    stoppedInformer := false
    stopInformerOnce := false
    listerHasStopped := false
    stopListerOnce := false
    draining := false
    pendingDrains := 0
    trace := [] }

/-- `hasSynced`. -/
def hasSynced (li : listerInformer Obj) : Bool :=
  li.informerHasSynced && li.lllw.hasReachedListCount

/-- `isDraining`. -/
def isDraining (li : listerInformer Obj) : Bool :=
  li.draining

/-- `isStopped`: the non-blocking receive on `listerHasStopped` succeeds
exactly when the channel is closed. -/
def isStopped (li : listerInformer Obj) : Bool :=
  li.listerHasStopped

/-- `stopInformer`: `close(li.stoppedInformer)`, with no guard. -/
def stopInformer (li : listerInformer Obj) : Option (listerInformer Obj) :=
  if li.stoppedInformer then none
  else some { li with stoppedInformer := true,
                      trace := li.trace ++ [Effect.close Chan.stoppedInformer] }

/-- `stopListerInformer`: `close(li.listerHasStopped)` under `stopListerOnce`. -/
def stopListerInformer (li : listerInformer Obj) : Option (listerInformer Obj) :=
  if li.stopListerOnce then some li
  else if li.listerHasStopped then none
  else some { li with stopListerOnce := true, listerHasStopped := true,
                      trace := li.trace ++ [Effect.close Chan.listerHasStopped] }

/-- `stop`: under `stopInformerOnce`, `stopListerInformer()` and then
`stopInformer()`. -/
def stop (li : listerInformer Obj) : Option (listerInformer Obj) :=
  if li.stopInformerOnce then some li
  else (stopListerInformer { li with stopInformerOnce := true }).bind stopInformer

/-- `newWatchEvent`: unwrap a tombstone once, then require a `runtime.Object`.
`none` is the Go result `(nil, false)`. -/
def newWatchEvent (eventType : EventType) (obj : Value Obj) : Option (Event Obj) :=
  let obj := match obj with
    | Value.tombstone _ inner => inner
    | v => v
  match obj with
  | Value.object runtimeObj => some { Type_ := eventType, Object := runtimeObj }
  | _ => none

/-- `sendEvent`: `li.events(li.listerHasStopped, event)`. -/
def sendEvent (li : listerInformer Obj) (event : Event Obj) : listerInformer Obj :=
  { li with trace := li.trace ++ [Effect.events Chan.listerHasStopped event] }

/-- `OnAdd`. -/
def OnAdd (li : listerInformer Obj) (obj : Value Obj) : listerInformer Obj :=
  match newWatchEvent EventType.Added obj with
  | some watchEvent =>
    let li := sendEvent li watchEvent
    { li with lllw := li.lllw.incAddCount }
  | none => li

/-- `OnUpdate`. -/
def OnUpdate (li : listerInformer Obj) (_oldObj newObj : Value Obj) : listerInformer Obj :=
  match newWatchEvent EventType.Modified newObj with
  | some watchEvent => sendEvent li watchEvent
  | none => li

/-- `OnDelete`. -/
def OnDelete (li : listerInformer Obj) (obj : Value Obj) : listerInformer Obj :=
  match newWatchEvent EventType.Deleted obj with
  | some watchEvent => sendEvent li watchEvent
  | none => li

/-- The closure `shouldDrain` of `drain`, run under `li.lock`: test and set
`draining`, and on the first call `stopInformer()`. -/
def shouldDrain (li : listerInformer Obj) : Option (listerInformer Obj × Bool) :=
  if li.draining then some (li, false)
  else (stopInformer { li with draining := true }).map fun li => (li, true)

/-- `drain`, as its caller sees it: `shouldDrain`, and when that says so the
`go func()` statement. -/
def drain (li : listerInformer Obj) : Option (listerInformer Obj) :=
  (shouldDrain li).map fun r =>
    if r.2 then { r.1 with pendingDrains := r.1.pendingDrains + 1 } else r.1

/-- The loop of the drain goroutine: `li.OnDelete(resource)` for each resource
of the snapshot. -/
def drainResources (li : listerInformer Obj) (resourcesToDrain : List (Value Obj)) :
    listerInformer Obj :=
  resourcesToDrain.foldl OnDelete li

/-- The deferred calls of the drain goroutine, in the order they run:
`li.stopListerInformer()` and then `li.drained(li.namespace)`. -/
def drainDeferred (li : listerInformer Obj) : Option (listerInformer Obj) :=
  (stopListerInformer li).map fun li =>
    { li with trace := li.trace ++ [Effect.drained li.namespace_] }

/-- The body of the goroutine that `drain` starts, run to its end. -/
def drainGoroutine (li : listerInformer Obj) : Option (listerInformer Obj) :=
  let resourcesToDrain := li.store
  (drainDeferred (drainResources li resourcesToDrain)).map fun li =>
    { li with pendingDrains := li.pendingDrains - 1 }

/-- The events handed to the sink, in order. -/
def delivered : List (Effect Obj) → List (Event Obj)
  | [] => []
  | Effect.events _ event :: rest => event :: delivered rest
  | _ :: rest => delivered rest

/-- How many times the drained callback was invoked. -/
def drainedCalls : List (Effect Obj) → List String
  | [] => []
  | Effect.drained ns :: rest => ns :: drainedCalls rest
  | _ :: rest => drainedCalls rest

/-- The calls by which an adapter's state changes: the three informer
callbacks, `drain()`, `stop()`, the scheduler running a started drain
goroutine, the shared informer replacing the contents of its store, and the
shared informer finishing its initial sync (`HasSynced()` is true from then
on). -/
inductive Call (Obj : Type) where
  | OnAdd (obj : Value Obj)
  | OnUpdate (oldObj newObj : Value Obj)
  | OnDelete (obj : Value Obj)
  | drain
  | stop
  | drainGoroutine
  | informerStore (store : List (Value Obj))
  | informerHasSynced
  deriving DecidableEq, Repr

/-- One call on an adapter; `none` when the call panics.  Running the drain
goroutine when none has been started does nothing. -/
def exec (li : listerInformer Obj) : Call Obj → Option (listerInformer Obj)
  | Call.OnAdd obj => some (OnAdd li obj)
  | Call.OnUpdate oldObj newObj => some (OnUpdate li oldObj newObj)
  | Call.OnDelete obj => some (OnDelete li obj)
  | Call.drain => drain li
  | Call.stop => stop li
  | Call.drainGoroutine => if li.pendingDrains = 0 then some li else drainGoroutine li
  | Call.informerStore store => some { li with store := store }
  | Call.informerHasSynced => some { li with informerHasSynced := true }

/-- A sequence of calls, one after the other; `none` as soon as one panics. -/
def run (li : listerInformer Obj) : List (Call Obj) → Option (listerInformer Obj)
  | [] => some li
  | c :: cs => (exec li c).bind fun li => run li cs

/-- Whether `close(ch)` occurs in a trace. -/
def closedIn (ch : Chan) (tr : List (Effect Obj)) : Bool :=
  tr.any fun e =>
    match e with
    | Effect.close c => decide (c = ch)
    | _ => false

/-- Replays a trace and checks that every `close(listerHasStopped)` in it comes
at a moment when `stoppedInformer` is closed already; `informerClosed` says
whether `stoppedInformer` is closed before the trace starts. -/
def closesInOrder (informerClosed : Bool) : List (Effect Obj) → Bool
  | [] => true
  | Effect.close Chan.stoppedInformer :: rest => closesInOrder true rest
  | Effect.close Chan.listerHasStopped :: rest => informerClosed && closesInOrder informerClosed rest
  | _ :: rest => closesInOrder informerClosed rest

/-- What holds of every state that calls can reach from a new adapter:
`listerHasStopped` is closed only if `stoppedInformer` is, a drain goroutine
is started only after `stoppedInformer` was closed, `draining` is set only
with `stoppedInformer` closed, a `stop()` that ran left `stoppedInformer`
closed and `draining` unset, and the trace records the close of
`stoppedInformer`. -/
structure Inv (li : listerInformer Obj) : Prop where
  lister_informer : li.listerHasStopped = true → li.stoppedInformer = true
  pending_informer : li.pendingDrains ≠ 0 → li.stoppedInformer = true
  draining_informer : li.draining = true → li.stoppedInformer = true
  once_informer : li.stopInformerOnce = true → li.stoppedInformer = true ∧ li.draining = false
  trace_informer : closedIn Chan.stoppedInformer li.trace = li.stoppedInformer

/-- A running adapter: as `newListerInformer` made it, but for what the
informer did since (store, sync status, counts, events forwarded).  Neither
channel is closed, neither `sync.Once` has run, `draining` is not set and no
drain goroutine has been started. -/
structure Running (li : listerInformer Obj) : Prop where
  stoppedInformer : li.stoppedInformer = false
  stopInformerOnce : li.stopInformerOnce = false
  listerHasStopped : li.listerHasStopped = false
  stopListerOnce : li.stopListerOnce = false
  draining : li.draining = false
  pendingDrains : li.pendingDrains = 0

instance (li : listerInformer Obj) : Decidable (Running li) :=
  decidable_of_iff
    (li.stoppedInformer = false ∧ li.stopInformerOnce = false ∧ li.listerHasStopped = false ∧
      li.stopListerOnce = false ∧ li.draining = false ∧ li.pendingDrains = 0)
    ⟨fun ⟨a, b, c, d, e, f⟩ => ⟨a, b, c, d, e, f⟩, fun ⟨a, b, c, d, e, f⟩ => ⟨a, b, c, d, e, f⟩⟩

instance (li : listerInformer Obj) : Decidable (Inv li) :=
  decidable_of_iff
    ((li.listerHasStopped = true → li.stoppedInformer = true) ∧
      (li.pendingDrains ≠ 0 → li.stoppedInformer = true) ∧
      (li.draining = true → li.stoppedInformer = true) ∧
      (li.stopInformerOnce = true → li.stoppedInformer = true ∧ li.draining = false) ∧
      closedIn Chan.stoppedInformer li.trace = li.stoppedInformer)
    ⟨fun ⟨a, b, c, d, e⟩ => ⟨a, b, c, d, e⟩, fun ⟨a, b, c, d, e⟩ => ⟨a, b, c, d, e⟩⟩

/-- A concrete adapter for namespace `test_namespace` whose store holds the
pods `pod-1` and `pod-2`. -/
def exampleInformer : listerInformer String :=
  { (newListerInformer "test_namespace" : listerInformer String) with
    store := [Value.object "pod-1", Value.object "pod-2"] }

/-- The adapter `exampleInformer` after `drain()` and its goroutine. -/
def exampleDrained : listerInformer String :=
  { exampleInformer with
    stoppedInformer := true
    listerHasStopped := true
    stopListerOnce := true
    draining := true
    trace := [Effect.close Chan.stoppedInformer,
      Effect.events Chan.listerHasStopped { Type_ := EventType.Deleted, Object := "pod-1" },
      Effect.events Chan.listerHasStopped { Type_ := EventType.Deleted, Object := "pod-2" },
      Effect.close Chan.listerHasStopped,
      Effect.drained "test_namespace"] }

/-- Modelled from the spec: the bulk fetch through `listLenListerWatcher`
(spec 4.1, `list()`) returning `n` objects: the count `n` is recorded.  The
spec has the bulk fetch performed once, at adapter start, and the recorded
count fixed from then on. -/
def listLenListerWatcher.list (l : listLenListerWatcher) (n : Nat) : listLenListerWatcher :=
  { l with listCount := n }

/-- The adapter once the bulk fetch of its informer has returned `n` objects. -/
def informerList (li : listerInformer Obj) (n : Nat) : listerInformer Obj :=
  { li with lllw := li.lllw.list n }

/-- The informer announcing the objects `objs`, in order: one `OnAdd` each. -/
def addAll (li : listerInformer Obj) (objs : List Obj) : listerInformer Obj :=
  objs.foldl (fun li x => OnAdd li (Value.object x)) li

/-- How many of the events are of kind Added. -/
def addedCount (evs : List (Event Obj)) : Nat :=
  evs.countP fun e => decide (e.Type_ = EventType.Added)

/-- More of what holds of every state that calls can reach from a new adapter:
`stopListerOnce` has run exactly when `listerHasStopped` is closed; a drain
goroutine that is started and has not run yet finds `listerHasStopped` open and
`draining` set; at most one drain goroutine is ever waiting to run. -/
structure DrainInv (li : listerInformer Obj) : Prop where
  once_lister : li.stopListerOnce = li.listerHasStopped
  pending_open : li.pendingDrains ≠ 0 → li.listerHasStopped = false
  pending_draining : li.pendingDrains ≠ 0 → li.draining = true
  pending_le : li.pendingDrains ≤ 1

/-- Whether every sink call of the trace was handed `li.listerHasStopped`. -/
def sinkGetsStopChannel (tr : List (Effect Obj)) : Bool :=
  tr.all fun e =>
    match e with
    | Effect.events ch _ => decide (ch = Chan.listerHasStopped)
    | _ => true

/-- What holds of the trace and the namespace in every state that calls can
reach from `newListerInformer ns`: the namespace is `ns`; every sink call was
handed `listerHasStopped`; the drained callback has been invoked once, with
`ns`, if a drain has been started and its goroutine has run, and not at all
otherwise. -/
structure TraceInv (ns : String) (li : listerInformer Obj) : Prop where
  namespace_eq : li.namespace_ = ns
  stop_channel : sinkGetsStopChannel li.trace = true
  drained_once : drainedCalls li.trace
    = if li.draining = true ∧ li.pendingDrains = 0 then [ns] else []

/-- The adapter `exampleInformer` after `drain()`, its goroutine not yet run. -/
def exampleDraining : listerInformer String :=
  { exampleInformer with
    stoppedInformer := true
    draining := true
    pendingDrains := 1
    trace := [Effect.close Chan.stoppedInformer] }

/-- The synthetic deletes as the specification words them (4.3, step 3): a
Deleted event for each object of the cache snapshot, each delivered through
the delivery path of live events, `sendEvent`. -/
def specSyntheticDeletes (li : listerInformer Obj) (snapshot : List Obj) :
    listerInformer Obj :=
  snapshot.foldl (fun li x => sendEvent li { Type_ := EventType.Deleted, Object := x }) li

/-- The events handed to the sink after `close(stoppedInformer)`, the halt of
the informer. -/
def deliveredAfterHalt : List (Effect Obj) → List (Event Obj)
  | [] => []
  | Effect.close Chan.stoppedInformer :: rest => delivered rest
  | _ :: rest => deliveredAfterHalt rest

/-- The calls that the shared informer makes: the three callbacks and the
updates of its store. -/
def Call.fromInformer : Call Obj → Bool
  | Call.OnAdd _ => true
  | Call.OnUpdate _ _ => true
  | Call.OnDelete _ => true
  | Call.informerStore _ => true
  | _ => false

/-- Whether, in running `calls` from `li`, the informer makes none of its
calls once `stoppedInformer` is closed: the informer is run with
`informer.Run(li.stoppedInformer)`. -/
def haltRespected (li : listerInformer Obj) : List (Call Obj) → Bool
  | [] => true
  | c :: cs =>
    (!c.fromInformer || !li.stoppedInformer) &&
      match exec li c with
      | some li1 => haltRespected li1 cs
      | none => true

/-- The adapter of `test_namespace` after its bulk fetch returned twenty pods. -/
def exampleListed : listerInformer String :=
  informerList (newListerInformer "test_namespace") 20

/-- The pods `pod-1` .. `pod-n`, as `createPodList` of the tests makes them. -/
def createPodList (n : Nat) : List String :=
  (List.range n).map fun i => "pod-" ++ toString (i + 1)

/-- The adapter `exampleListed` once its informer has synced and the twenty
pods of the bulk fetch have been announced. -/
def exampleSynced : listerInformer String :=
  addAll { exampleListed with informerHasSynced := true } (createPodList 20)

/-- A notification of the shared informer, as it reaches the adapter. -/
inductive Notification (Obj : Type) where
  | Added (obj : Value Obj)
  | Updated (oldObj newObj : Value Obj)
  | Removed (obj : Value Obj)
  deriving DecidableEq, Repr

/-- The informer handing a notification to its handler, the adapter: `OnAdd`,
`OnUpdate` or `OnDelete`. -/
def notify (li : listerInformer Obj) : Notification Obj → listerInformer Obj
  | Notification.Added obj => OnAdd li obj
  | Notification.Updated oldObj newObj => OnUpdate li oldObj newObj
  | Notification.Removed obj => OnDelete li obj

/-- The object a payload stands for, as the specification words it (4.2): the
object itself, or the object a tombstone placeholder wraps; nothing for any
other payload. -/
def recoveredObject : Value Obj → Option Obj
  | Value.object x => some x
  | Value.tombstone _ (Value.object x) => some x
  | _ => none

/-- The translation of a notification, as the specification words it (4.2):
Added gives `Event{Added, object}`, Updated gives `Event{Modified, new}`,
Removed gives `Event{Deleted, recovered object}`; a malformed notification has
no translation. -/
def translation : Notification Obj → Option (Event Obj)
  | Notification.Added obj =>
    (recoveredObject obj).map fun x => { Type_ := EventType.Added, Object := x }
  | Notification.Updated _ newObj =>
    (recoveredObject newObj).map fun x => { Type_ := EventType.Modified, Object := x }
  | Notification.Removed obj =>
    (recoveredObject obj).map fun x => { Type_ := EventType.Deleted, Object := x }

/-- Whether the adapter passes through Draining (`isDraining()` true) at some
point of the run of `calls` from `li`, its start and end included. -/
def passesThroughDraining (li : listerInformer Obj) : List (Call Obj) → Bool
  | [] => isDraining li
  | c :: cs =>
    isDraining li ||
      match exec li c with
      | some li1 => passesThroughDraining li1 cs
      | none => false

end listwatch

/-!
# Maistra/istio: Istio Gateways and OpenShift Routes (`pilot/pkg/config/kube/ior/route.go`)

A shallow embedding of the `route` type of package `ior`.

* A Go `map[string]string` is an association list; `mapIndex` is the index
  expression `m[k]` and `mapAssign` the assignment `m[k] = v`.
* A panic is the result `none`.
* The clients of the cluster (the config store, the router client, the kube
  client) are a record of functions on a cluster state `σ`; `FakeRouter` is the
  router of `fake.go`.
* `crypto/sha256` is a parameter `Sum256`.
-/

namespace ior

/-- A Go `map[string]string`. -/
abbrev StringMap := List (String × String)

/-- The index expression `m[k]`: the value of `k`, the empty string when `k` is
not in the map. -/
def mapIndex (m : StringMap) (k : String) : String :=
  match m.find? fun p => p.1 == k with
  | some p => p.2
  | none => ""

/-- The assignment `m[k] = v`. -/
def mapAssign (m : StringMap) (k v : String) : StringMap :=
  (k, v) :: m.filter fun p => p.1 != k

def maistraPrefix : String := "maistra.io/"

def generatedByLabel : String := maistraPrefix ++ "generated-by"

def generatedByValue : String := "ior"

def originalHostAnnotation : String := maistraPrefix ++ "original-host"

def gatewayNameLabel : String := maistraPrefix ++ "gateway-name"

def gatewayNamespaceLabel : String := maistraPrefix ++ "gateway-namespace"

def gatewayResourceVersionLabel : String := maistraPrefix ++ "gateway-resourceVersion"

/-- The fields of `networking.ServerTLSSettings` that the code reads. -/
structure ServerTLSSettings where
  HttpsRedirect : Bool
  deriving DecidableEq, Repr

/-- The fields of `networking.Server` that the code reads; `Tls` is a pointer,
`none` when nil. -/
structure Server where
  Hosts : List String
  Tls : Option ServerTLSSettings
  deriving DecidableEq, Repr

/-- The fields of `networking.Gateway` that the code reads. -/
structure Gateway where
  Servers : List Server
  Selector : StringMap
  deriving DecidableEq, Repr

/-- The fields of `config.Meta` that the code reads. -/
structure Meta where
  Name : String
  Namespace : String
  ResourceVersion : String
  Annotations : StringMap
  deriving DecidableEq, Repr

/-- A `config.Config`: it embeds `config.Meta`; `Spec` is `some gw` when the
spec is a `*networking.Gateway` and `none` when it is anything else. -/
structure Config extends Meta where
  Spec : Option Gateway
  deriving DecidableEq, Repr

/-- The zero value `config.Config{}`. -/
def Config.zero : Config :=
  { Name := "", Namespace := "", ResourceVersion := "", Annotations := [], Spec := none }

inductive WildcardPolicyType where
  | WildcardPolicyNone
  | WildcardPolicySubdomain
  deriving DecidableEq, Repr

/-- A `v1.TLSConfig` with termination `TLSTerminationPassthrough`;
`InsecureEdgeTerminationPolicyRedirect` says whether the insecure policy is
set to redirect. -/
structure TLSConfig where
  InsecureEdgeTerminationPolicyRedirect : Bool
  deriving DecidableEq, Repr

/-- The fields of `metav1.ObjectMeta` that the code sets or reads. -/
structure ObjectMeta where
  Name : String
  Namespace : String
  Labels : StringMap
  Annotations : StringMap
  deriving DecidableEq, Repr

/-- The fields of `v1.RouteSpec` that the code sets or reads. -/
structure RouteSpec where
  Host : String
  TargetPort : String
  To : String
  TLS : Option TLSConfig
  WildcardPolicy : WildcardPolicyType
  deriving DecidableEq, Repr

/-- A `v1.Route`. -/
structure Route where
  ObjectMeta : ObjectMeta
  Spec : RouteSpec
  deriving DecidableEq, Repr

/-- The labels of a pod. -/
structure Pod where
  Labels : StringMap
  deriving DecidableEq, Repr

/-- The name and the selector of a service. -/
structure Service where
  Name : String
  Selector : StringMap
  deriving DecidableEq, Repr

/-- The type `syncRoutes`. -/
structure syncRoutes where
  gateway : Gateway
  routes : List Route
  deriving DecidableEq, Repr

/-- The type `route`: the fields that are data.  `gatewaysMap` maps a key to a
pointer to a `syncRoutes`. -/
structure route where
  pilotNamespace : String
  gatewaysMap : List (String × syncRoutes)
  namespaces : List String
  deriving DecidableEq, Repr

/-- The events of `model.Event`. -/
inductive Event where
  | EventAdd
  | EventUpdate
  | EventDelete
  deriving DecidableEq, Repr

/-- The clients that a `route` holds, as functions on the state `σ` of the
cluster: `r.store.List` for the Gateways, the `List`, `Create` and `Delete` of
`r.routerClient.Routes(ns)`, and the `List` of the pods (by label selector) and
of the services of `r.kubeClient.CoreV1()`.  An error is a message. -/
structure Clients (σ : Type) where
  storeList : σ → Except String (List Config)
  routesList : σ → String → Except String (List Route)
  routesCreate : σ → String → Route → Except String Route × σ
  routesDelete : σ → String → String → Option String × σ
  podsList : σ → String → StringMap → Except String (List Pod)
  servicesList : σ → String → Except String (List Service)

/-- The value of type `[32]byte` that `sha256.Sum256` returns; a byte is a
number below 256. -/
abbrev Digest := { l : List Nat // l.length = 32 ∧ ∀ b ∈ l, b < 256 }

/-- `[]byte(name)`: the bytes of the UTF-8 encoding of the name, character by
character. -/
def bytesOf (name : String) : List Nat :=
  name.data.flatMap fun c => (String.utf8EncodeChar c).map UInt8.toNat

/-- The table `hextable` of `encoding/hex`. -/
def hextable : List Char := "0123456789abcdef".toList

/-- `hex.EncodeToString`: for each byte `v` the digits `hextable[v>>4]` and
`hextable[v&0x0f]`. -/
def EncodeToString (src : List Nat) : String :=
  String.mk (src.flatMap fun v => [hextable.getD (v / 16 % 16) '0', hextable.getD (v % 16) '0'])

/-- The value of a hexadecimal digit in lower case; nothing for any other
character. -/
def fromHexChar (c : Char) : Option Nat :=
  if 48 ≤ c.toNat ∧ c.toNat ≤ 57 then some (c.toNat - 48)
  else if 97 ≤ c.toNat ∧ c.toNat ≤ 102 then some (c.toNat - 97 + 10)
  else none

/-- Reading a text of hexadecimal digits in lower case back into bytes, two
digits a byte, the high digit first; nothing when a character is no such
digit or the number of characters is odd. -/
def decodeHex : List Char → Option (List Nat)
  | [] => some []
  | [_] => none
  | hi :: lo :: rest =>
    match fromHexChar hi, fromHexChar lo, decodeHex rest with
    | some x, some y, some bytes => some ((x * 16 + y) :: bytes)
    | _, _, _ => none

/-- `hostHash`. -/
def hostHash (Sum256 : List Nat → Digest) (name : String) : String :=
  let name := if name = "" then "star" else name
  let hash := Sum256 (bytesOf name)
  EncodeToString (hash.val.take 8)

/-- The library call `strings.HasPrefix(s, pre)`. -/
def HasPrefix (s pre : String) : Bool :=
  pre.data.isPrefixOf s.data

/-- The library call `strings.TrimPrefix(s, pre)`. -/
def TrimPrefix (s pre : String) : String :=
  if HasPrefix s pre then String.mk (s.data.drop pre.data.length) else s

/-- `gatewaysMapKey`. -/
def gatewaysMapKey (namespace_ name : String) : String :=
  namespace_ ++ "/" ++ name

/-- `findConfig`: the pair of the config and the error returned. -/
def findConfig (list : List Config) (name namespace_ resourceVersion : String) :
    Config × Option String :=
  match list with
  | [] => (Config.zero, some "config not found")
  | item :: rest =>
    if item.Name = name ∧ item.Namespace = namespace_ ∧ item.ResourceVersion = resourceVersion
    then (item, none)
    else findConfig rest name namespace_ resourceVersion

/-- `getHost`. -/
def getHost (route : Route) : String :=
  let host := mapIndex route.ObjectMeta.Annotations originalHostAnnotation
  if host ≠ "" then host else route.Spec.Host

/-- A `*multierror.Error` of the library `go-multierror`: `none` is the nil
pointer, `some errs` an `Error` whose field `Errors` holds `errs`. -/
abbrev MultiError := Option (List String)

/-- The library call `multierror.Append(err, errs...)` with `err` of type
`*multierror.Error`: a nil `err` becomes a new `Error`, and the errors of
`errs` that are not nil are appended to its `Errors`. -/
def multierror.Append (err : MultiError) (errs : List (Option String)) : MultiError :=
  some (err.getD [] ++ errs.filterMap id)

/-- The library call `multierror.Append(err)` with `err` an `error` that is not
a `*multierror.Error` and no further argument: a new `Error` that holds `err`
if it is not nil, and nothing otherwise. -/
def multierror.AppendTo (err : Option String) : MultiError :=
  multierror.Append (some []) [err]

/-- The library method `ErrorOrNil`: nil for a nil pointer and for an `Error`
without `Errors`. -/
def multierror.ErrorOrNil : MultiError → Option (List String)
  | none => none
  | some [] => none
  | some (e :: es) => some (e :: es)

/-- `deleteRoute`: the error returned and the cluster afterwards. -/
def deleteRoute {σ : Type} (c : Clients σ) (w : σ) (route : Route) : Option String × σ :=
  match c.routesDelete w route.ObjectMeta.Namespace route.ObjectMeta.Name with
  | (some err, w1) =>
    (some ("error deleting route " ++ route.ObjectMeta.Namespace ++ "/"
      ++ route.ObjectMeta.Name ++ ": " ++ err), w1)
  | (none, w1) => (none, w1)

/-- The library call `labels.SelectorFromSet(selector).Matches(labels)`: every
pair of the selector is among the labels. -/
def selectorMatches (selector labels : StringMap) : Bool :=
  selector.all fun p => (labels.find? fun q => q.1 == p.1).map (fun q => q.2) == some p.2

/-- The two inner loops of `findService`: the name of the first service, for
the first pod that has one, whose selector matches the labels of the pod. -/
def findServiceMatch (pods : List Pod) (svcs : List Service) : Option String :=
  pods.findSome? fun pod =>
    (svcs.find? fun svc => selectorMatches svc.Selector pod.Labels).map fun svc => svc.Name

/-- The library call `labels.SelectorFromSet(selector).String()`: the pairs
`key=value`, sorted by key and separated by commas. -/
def selectorString (selector : StringMap) : String :=
  ",".intercalate
    ((selector.insertionSort fun p q => p.1 < q.1 ∨ p.1 = q.1).map fun p => p.1 ++ "=" ++ p.2)

/-- The outer loop of `findService` over the namespaces still to visit; `all`
is `r.namespaces`, for the message. -/
def findServiceIn {σ : Type} (c : Clients σ) (w : σ) (gateway : Gateway) (all : List String) :
    List String → Except String (String × String)
  | [] => Except.error ("could not find a service that matches the gateway selector \x60"
      ++ selectorString gateway.Selector ++ "\x27. Namespaces where we looked at: ["
      ++ " ".intercalate all ++ "]")
  | ns :: rest =>
    match c.podsList w ns gateway.Selector with
    | Except.error err =>
      Except.error ("could not get the list of pods in namespace " ++ ns ++ ": " ++ err)
    | Except.ok pods =>
      match c.servicesList w ns with
      | Except.error err =>
        Except.error ("could not get the list of services in namespace " ++ ns ++ ": " ++ err)
      | Except.ok svcs =>
        match findServiceMatch pods svcs with
        | some name => Except.ok (ns, name)
        | none => findServiceIn c w gateway all rest

/-- `findService`. -/
def findService {σ : Type} (c : Clients σ) (w : σ) (r : route) (gateway : Gateway) :
    Except String (String × String) :=
  findServiceIn c w gateway r.namespaces r.namespaces

/-- The annotations that `createRoute` gives a route: the original host, then
every annotation of the gateway whose key does not start with
`kubectl.kubernetes.io`, assigned over it. -/
def routeAnnotations (metadata : Meta) (originalHost : String) : StringMap :=
  metadata.Annotations.foldl
    (fun annotations kv =>
      if !(HasPrefix kv.1 "kubectl.kubernetes.io") then mapAssign annotations kv.1 kv.2
      else annotations)
    [( originalHostAnnotation, originalHost)]

/-- `createRoute`: the route or the error returned, and the cluster
afterwards. -/
def createRoute {σ : Type} (Sum256 : List Nat → Digest) (c : Clients σ) (w : σ) (r : route)
    (metadata : Meta) (gateway : Gateway) (originalHost : String)
    (tls : Option ServerTLSSettings) : Except String Route × σ :=
  let wildcardActual : WildcardPolicyType × String :=
    if originalHost = "*" then (WildcardPolicyType.WildcardPolicyNone, "")
    else if HasPrefix originalHost "*." then
      (WildcardPolicyType.WildcardPolicySubdomain, "wildcard." ++ TrimPrefix originalHost "*.")
    else (WildcardPolicyType.WildcardPolicyNone, originalHost)
  let wildcard := wildcardActual.1
  let actualHost := wildcardActual.2
  let tlsConfigPort : Option TLSConfig × String :=
    match tls with
    | some t => (some { InsecureEdgeTerminationPolicyRedirect := t.HttpsRedirect }, "https")
    | none => (none, "http2")
  match findService c w r gateway with
  | Except.error err => (Except.error err, w)
  | Except.ok (serviceNamespace, serviceName) =>
    let annotations := routeAnnotations metadata originalHost
    match c.routesCreate w serviceNamespace
      { ObjectMeta :=
          { Name := metadata.Namespace ++ "-" ++ metadata.Name ++ "-" ++ hostHash Sum256 actualHost
            Namespace := serviceNamespace
            Labels := [(generatedByLabel, generatedByValue),
              (gatewayNamespaceLabel, metadata.Namespace),
              (gatewayNameLabel, metadata.Name),
              (gatewayResourceVersionLabel, metadata.ResourceVersion)]
            Annotations := annotations }
        Spec :=
          { Host := actualHost
            TargetPort := tlsConfigPort.2
            To := serviceName
            TLS := tlsConfigPort.1
            WildcardPolicy := wildcard } } with
    | (Except.error err, w1) =>
      (Except.error ("error creating a route for the host " ++ originalHost ++ " (gateway: "
        ++ metadata.Namespace ++ "/" ++ metadata.Name ++ "): " ++ err), w1)
    | (Except.ok nr, w1) => (Except.ok nr, w1)

/-- What `syncGatewaysAndRoutes2` does for one host of an added gateway:
`createRoute`, the error appended to `result` or the route appended to
`syncRoute.routes`. -/
def addHost {σ : Type} (Sum256 : List Nat → Digest) (c : Clients σ) (r : route)
    (metadata : Meta) (gw : Gateway) (tls : Option ServerTLSSettings)
    (st : MultiError × List Route × σ) (host : String) : MultiError × List Route × σ :=
  match createRoute Sum256 c st.2.2 r metadata gw host tls with
  | (Except.error err, w1) => (multierror.Append st.1 [some err], st.2.1, w1)
  | (Except.ok route, w1) => (st.1, st.2.1 ++ [route], w1)

/-- `syncGatewaysAndRoutes2`: the error returned, the `route` and the cluster
afterwards; `none` when the call panics. -/
def syncGatewaysAndRoutes2 {σ : Type} (Sum256 : List Nat → Digest) (c : Clients σ) (w : σ)
    (r : route) (event : Event) (curr : Config) :
    Option (Option (List String) × route × σ) :=
  match event with
  | Event.EventAdd =>
    -- gw := curr.Spec.(*networking.Gateway)
    match curr.Spec with
    | none => none
    | some gw =>
      let key := gatewaysMapKey curr.Namespace curr.Name
      let rest := r.gatewaysMap.filter fun p => p.1 != key
      let r1 := { r with gatewaysMap := (key, { gateway := gw, routes := [] }) :: rest }
      let st := gw.Servers.foldl
        (fun st server => server.Hosts.foldl (addHost Sum256 c r1 curr.toMeta gw server.Tls) st)
        ((none : MultiError), ([] : List Route), w)
      some (multierror.ErrorOrNil st.1,
        { r with gatewaysMap := (key, { gateway := gw, routes := st.2.1 }) :: rest }, st.2.2)
  | Event.EventUpdate => some (multierror.ErrorOrNil none, r, w)
  | Event.EventDelete =>
    let key := gatewaysMapKey curr.Namespace curr.Name
    -- syncRoute, ok := r.gatewaysMap[key]
    let syncRoute := r.gatewaysMap.lookup key
    let result : MultiError :=
      match syncRoute with
      | none => multierror.Append none
          [some ("Could not find gateway " ++ curr.Namespace ++ "/" ++ curr.Name)]
      | some _ => none
    -- syncRoute.routes: the pointer is dereferenced
    match syncRoute with
    | none => none
    | some syncRoute =>
      let st := syncRoute.routes.foldl
        (fun st route =>
          let d := deleteRoute c st.2 route
          (multierror.Append st.1 [d.1], d.2))
        (result, w)
      some (multierror.ErrorOrNil st.1,
        { r with gatewaysMap := r.gatewaysMap.filter fun p => p.1 != key }, st.2)

/-- The first loop of `syncGatewaysAndRoutes`: the routes of all namespaces,
or the error of the first `List` that fails. -/
def listRoutes {σ : Type} (c : Clients σ) (w : σ) : List String → Except String (List Route)
  | [] => Except.ok []
  | ns :: rest =>
    match c.routesList w ns with
    | Except.error err =>
      Except.error ("could not get list of Routes in namespace " ++ ns ++ ": " ++ err)
    | Except.ok items =>
      match listRoutes c w rest with
      | Except.error err => Except.error err
      | Except.ok routes => Except.ok (items ++ routes)

/-- What `syncGatewaysAndRoutes` does for one route of the cluster: a route
whose gateway is not among the configs is deleted and `result` becomes
`multierror.Append` of the error of `deleteRoute`; any other route is entered
into `routesMap` under its host. -/
def syncRoute {σ : Type} (c : Clients σ) (configs : List Config)
    (st : MultiError × List (String × Route) × σ) (route : Route) :
    MultiError × List (String × Route) × σ :=
  match (findConfig configs (mapIndex route.ObjectMeta.Labels gatewayNameLabel)
      (mapIndex route.ObjectMeta.Labels gatewayNamespaceLabel)
      (mapIndex route.ObjectMeta.Labels gatewayResourceVersionLabel)).2 with
  | some _ =>
    let d := deleteRoute c st.2.2 route
    (multierror.AppendTo d.1, st.2.1, d.2)
  | none =>
    (st.1, (getHost route, route) :: st.2.1.filter (fun p => p.1 != getHost route), st.2.2)

/-- What `syncGatewaysAndRoutes` does for one host of a gateway: when no route
is in `routesMap` under the host, `createRoute`, and `result` becomes
`multierror.Append` of its error. -/
def syncHost {σ : Type} (Sum256 : List Nat → Digest) (c : Clients σ) (r : route)
    (routesMap : List (String × Route)) (metadata : Meta) (gateway : Gateway)
    (tls : Option ServerTLSSettings) (st : MultiError × σ) (host : String) : MultiError × σ :=
  match routesMap.lookup host with
  | some _ => st
  | none =>
    match createRoute Sum256 c st.2 r metadata gateway host tls with
    | (Except.error err, w1) => (multierror.AppendTo (some err), w1)
    | (Except.ok _, w1) => (multierror.AppendTo none, w1)

/-- The loop of `syncGatewaysAndRoutes` over the configs; `none` when the type
assertion `cfg.Spec.(*networking.Gateway)` panics. -/
def syncConfigs {σ : Type} (Sum256 : List Nat → Digest) (c : Clients σ) (r : route)
    (routesMap : List (String × Route)) : List Config → MultiError × σ → Option (MultiError × σ)
  | [], st => some st
  | cfg :: rest, st =>
    match cfg.Spec with
    | none => none
    | some gateway =>
      syncConfigs Sum256 c r routesMap rest
        (gateway.Servers.foldl
          (fun st server =>
            server.Hosts.foldl (syncHost Sum256 c r routesMap cfg.toMeta gateway server.Tls) st)
          st)

/-- The error that `syncGatewaysAndRoutes` returns when it is not nil: made by
`fmt.Errorf` when a `List` fails, or the `*multierror.Error`. -/
inductive SyncError where
  | errorf (msg : String)
  | multi (Errors : List String)
  deriving DecidableEq, Repr

/-- `syncGatewaysAndRoutes`: the error returned and the cluster afterwards;
`none` when the call panics. -/
def syncGatewaysAndRoutes {σ : Type} (Sum256 : List Nat → Digest) (c : Clients σ) (w : σ)
    (r : route) : Option (Option SyncError × σ) :=
  match c.storeList w with
  | Except.error err =>
    some (some (SyncError.errorf ("could not get list of Gateways: " ++ err)), w)
  | Except.ok configs =>
    match listRoutes c w r.namespaces with
    | Except.error err => some (some (SyncError.errorf err), w)
    | Except.ok routes =>
      let st1 := routes.foldl (syncRoute c configs) ((none : MultiError), [], w)
      match syncConfigs Sum256 c r st1.2.1 configs (st1.1, st1.2.2) with
      | none => none
      | some st2 => some ((multierror.ErrorOrNil st2.1).map SyncError.multi, st2.2)

/-- The type `FakeRouter` of `fake.go`: the map from route names to routes. -/
structure FakeRouter where
  routes : List (String × Route)
  deriving DecidableEq, Repr

/-- `FakeRouter.Create`; `generatedHostNumber` is the package variable of that
name.  The route returned, the router and the variable afterwards. -/
def FakeRouter.Create (fk : FakeRouter) (generatedHostNumber : Nat) (route : Route) :
    Route × FakeRouter × Nat :=
  let generated : Route × Nat :=
    if route.Spec.Host = "" then
      ({ route with Spec := { route.Spec with
          Host := "generated-host" ++ toString (generatedHostNumber + 1) ++ ".com" } },
        generatedHostNumber + 1)
    else (route, generatedHostNumber)
  let route := generated.1
  (route,
    { routes := (route.ObjectMeta.Name, route)
        :: fk.routes.filter fun p => p.1 != route.ObjectMeta.Name },
    generated.2)

/-- `FakeRouter.Delete`. -/
def FakeRouter.Delete (fk : FakeRouter) (name : String) : Option String × FakeRouter :=
  match fk.routes.lookup name with
  | none => (some ("route " ++ name ++ " not found"), fk)
  | some _ => (none, { routes := fk.routes.filter fun p => p.1 != name })

/-- `FakeRouter.List`. -/
def FakeRouter.List (fk : FakeRouter) : List Route :=
  fk.routes.map fun p => p.2

/-- A cluster for the examples: the Gateways of the config store, the routers
of a `FakeRouterClient` by namespace with the variable `generatedHostNumber`,
and the pods and services by namespace. -/
structure FakeCluster where
  configs : List Config
  routesByNamespace : List (String × FakeRouter)
  generatedHostNumber : Nat
  pods : List (String × Pod)
  services : List (String × Service)
  deriving DecidableEq, Repr

/-- `FakeRouterClient.Routes`: the router of the namespace, a new one when the
namespace has none. -/
def FakeCluster.Routes (w : FakeCluster) (ns : String) : FakeRouter :=
  (w.routesByNamespace.lookup ns).getD { routes := [] }

/-- The clients of a `FakeCluster`. -/
def fakeClients : Clients FakeCluster :=
  { storeList := fun w => Except.ok w.configs
    routesList := fun w ns => Except.ok (w.Routes ns).List
    routesCreate := fun w ns route =>
      let res := (w.Routes ns).Create w.generatedHostNumber route
      (Except.ok res.1,
        { w with
          routesByNamespace := (ns, res.2.1) :: w.routesByNamespace.filter fun p => p.1 != ns
          generatedHostNumber := res.2.2 })
    routesDelete := fun w ns name =>
      let res := (w.Routes ns).Delete name
      (res.1,
        { w with
          routesByNamespace := (ns, res.2) :: w.routesByNamespace.filter fun p => p.1 != ns })
    podsList := fun w ns selector =>
      Except.ok ((w.pods.filter fun p => p.1 == ns && selectorMatches selector p.2.Labels).map
        fun p => p.2)
    servicesList := fun w ns =>
      Except.ok ((w.services.filter fun p => p.1 == ns).map fun p => p.2) }

/-- A stand-in for `sha256.Sum256` in the examples: thirty-two bytes computed
from the length of the input. -/
def exampleSum256 (input : List Nat) : Digest :=
  ⟨(List.range 32).map (fun i => (input.length + i) % 256), by
    refine ⟨by simp, ?_⟩
    intro b hb
    simp only [List.mem_map] at hb
    obtain ⟨i, _, rfl⟩ := hb
    exact Nat.mod_lt _ (by decide)⟩

/-- A second stand-in for `sha256.Sum256` in the examples, one that shows its
input: the first thirty-two bytes of the input, filled up with zeros. -/
def exampleCopySum256 (input : List Nat) : Digest :=
  ⟨((input ++ List.replicate 32 0).take 32).map (fun b => b % 256), by
    refine ⟨by simp, ?_⟩
    intro b hb
    simp only [List.mem_map] at hb
    obtain ⟨i, _, rfl⟩ := hb
    exact Nat.mod_lt _ (by decide)⟩

/-- A gateway for the host `a.com` whose selector matches no pod of the
example cluster. -/
def exampleGatewayA : Config :=
  { Name := "gw-a"
    Namespace := "istio-system"
    ResourceVersion := "1"
    Annotations := []
    Spec := some
      { Servers := [{ Hosts := ["a.com"], Tls := none }]
        Selector := [("istio", "nomatch")] } }

/-- The spec of the gateway `exampleGatewayB`. -/
def exampleGatewaySpecB : Gateway :=
  { Servers := [{ Hosts := ["b.com"], Tls := none }]
    Selector := [("istio", "ingressgateway")] }

/-- A gateway for the host `b.com` whose selector matches the ingress gateway
pod of the example cluster. -/
def exampleGatewayB : Config :=
  { Name := "gw-b"
    Namespace := "istio-system"
    ResourceVersion := "1"
    Annotations := []
    Spec := some exampleGatewaySpecB }

/-- A cluster with the two example gateways, no route yet, one ingress gateway
pod and its service. -/
def exampleCluster : FakeCluster :=
  { configs := [exampleGatewayA, exampleGatewayB]
    routesByNamespace := []
    generatedHostNumber := 0
    pods := [("istio-system", { Labels := [("istio", "ingressgateway")] })]
    services := [("istio-system",
      { Name := "istio-ingressgateway", Selector := [("istio", "ingressgateway")] })] }

/-- A `route` for the namespace `istio-system` that knows no gateway. -/
def exampleRoute : route :=
  { pilotNamespace := "istio-system"
    gatewaysMap := []
    namespaces := ["istio-system"] }

end ior

namespace listwatch

variable {Obj : Type}

/-! ## Lemmas on traces -/

theorem delivered_append (xs ys : List (Effect Obj)) :
    delivered (xs ++ ys) = delivered xs ++ delivered ys := by
  induction xs with
  | nil => rfl
  | cons e rest ih => cases e <;> simp [delivered, ih]

theorem drainedCalls_append (xs ys : List (Effect Obj)) :
    drainedCalls (xs ++ ys) = drainedCalls xs ++ drainedCalls ys := by
  induction xs with
  | nil => rfl
  | cons e rest ih => cases e <;> simp [drainedCalls, ih]

theorem delivered_map_events (ch : Chan) (evs : List (Event Obj)) :
    delivered (evs.map (Effect.events ch)) = evs := by
  induction evs with
  | nil => rfl
  | cons e rest ih => simp [delivered, ih]

theorem drainedCalls_map_events (ch : Chan) (evs : List (Event Obj)) :
    drainedCalls (evs.map (Effect.events ch)) = [] := by
  induction evs with
  | nil => rfl
  | cons e rest ih => simp [drainedCalls, ih]

theorem closedIn_append (ch : Chan) (xs ys : List (Effect Obj)) :
    closedIn ch (xs ++ ys) = (closedIn ch xs || closedIn ch ys) := by
  simp [closedIn]

theorem closedIn_map_events (ch c : Chan) (evs : List (Event Obj)) :
    closedIn ch (evs.map (Effect.events c)) = false := by
  induction evs with
  | nil => rfl
  | cons e rest ih =>
    simp only [closedIn, List.map_cons, List.any_cons, Bool.false_or] at ih ⊢
    exact ih

theorem closesInOrder_append (i : Bool) (xs ys : List (Effect Obj)) :
    closesInOrder i (xs ++ ys)
      = (closesInOrder i xs && closesInOrder (i || closedIn Chan.stoppedInformer xs) ys) := by
  induction xs generalizing i with
  | nil => simp [closesInOrder, closedIn]
  | cons e rest ih =>
    cases e with
    | events c ev => simp [closesInOrder, closedIn, ih]
    | drained ns => simp [closesInOrder, closedIn, ih]
    | close ch =>
      cases ch with
      | stoppedInformer => simp [closesInOrder, closedIn, ih]
      | listerHasStopped => simp [closesInOrder, closedIn, ih, Bool.and_assoc]

theorem closesInOrder_map_events (i : Bool) (c : Chan) (evs : List (Event Obj)) :
    closesInOrder i (evs.map (Effect.events c)) = true := by
  induction evs with
  | nil => rfl
  | cons e rest ih => simpa [closesInOrder] using ih

/-! ## Lemmas on the operations -/

theorem newWatchEvent_object (t : EventType) (x : Obj) :
    newWatchEvent t (Value.object x) = some { Type_ := t, Object := x } := rfl

theorem newWatchEvent_tombstone (t : EventType) (key : String) (v : Value Obj) :
    newWatchEvent t (Value.tombstone key v)
      = match v with
        | Value.object x => some { Type_ := t, Object := x }
        | _ => none := by
  cases v <;> rfl

theorem newWatchEvent_other (t : EventType) (tag : Nat) :
    newWatchEvent t (Value.other tag : Value Obj) = none := rfl

theorem OnDelete_object (li : listerInformer Obj) (x : Obj) :
    OnDelete li (Value.object x)
      = sendEvent li { Type_ := EventType.Deleted, Object := x } := rfl

/-- The drain loop over a snapshot of domain objects forwards one Deleted event
per object, in snapshot order, and touches nothing but the trace. -/
theorem drainResources_objects (C : List Obj) (li : listerInformer Obj) :
    drainResources li (C.map Value.object)
      = { li with trace := li.trace ++ C.map fun x =>
            Effect.events Chan.listerHasStopped { Type_ := EventType.Deleted, Object := x } } := by
  induction C generalizing li with
  | nil => simp [drainResources]
  | cons x rest ih =>
    have h := ih (OnDelete li (Value.object x))
    simp only [drainResources, OnDelete_object, sendEvent] at h
    simp [drainResources, OnDelete_object, sendEvent, h]

/-- The three callbacks change the trace by the events they forward (at most
one), `OnAdd` also the add count, and nothing else. -/
theorem OnDelete_eq (li : listerInformer Obj) (obj : Value Obj) :
    OnDelete li obj = { li with trace := li.trace ++
      (newWatchEvent EventType.Deleted obj).toList.map (Effect.events Chan.listerHasStopped) } := by
  unfold OnDelete
  cases newWatchEvent EventType.Deleted obj <;> simp [sendEvent]

theorem OnUpdate_eq (li : listerInformer Obj) (oldObj newObj : Value Obj) :
    OnUpdate li oldObj newObj = { li with trace := (li.trace ++
      (newWatchEvent EventType.Modified newObj).toList.map
        (Effect.events Chan.listerHasStopped)) } := by
  unfold OnUpdate
  cases newWatchEvent EventType.Modified newObj <;> simp [sendEvent]

theorem OnAdd_eq (li : listerInformer Obj) (obj : Value Obj) :
    OnAdd li obj = { li with
      lllw := { li.lllw with addCount := (li.lllw.addCount +
        (newWatchEvent EventType.Added obj).toList.length) },
      trace := (li.trace ++
        (newWatchEvent EventType.Added obj).toList.map
          (Effect.events Chan.listerHasStopped)) } := by
  unfold OnAdd
  cases newWatchEvent EventType.Added obj <;>
    simp [sendEvent, listLenListerWatcher.incAddCount]

/-- The drain loop over any snapshot: one Deleted event for each resource that
`newWatchEvent` accepts, in snapshot order, and nothing but the trace changes. -/
theorem drainResources_eq (rs : List (Value Obj)) (li : listerInformer Obj) :
    drainResources li rs = { li with trace := (li.trace ++
      (rs.filterMap (newWatchEvent EventType.Deleted)).map
        (Effect.events Chan.listerHasStopped)) } := by
  induction rs generalizing li with
  | nil => simp [drainResources]
  | cons r rest ih =>
    show drainResources (OnDelete li r) rest = _
    rw [ih, OnDelete_eq]
    cases h : newWatchEvent EventType.Deleted r <;> simp [List.filterMap_cons, h]

/-- On a running adapter `drain()` sets the flag, closes `stoppedInformer` and
starts one goroutine. -/
theorem drain_running (li : listerInformer Obj) (hrun : Running li) :
    drain li = some { li with draining := true, stoppedInformer := true,
                              trace := li.trace ++ [Effect.close Chan.stoppedInformer],
                              pendingDrains := 1 } := by
  simp [drain, shouldDrain, stopInformer, hrun.draining, hrun.stoppedInformer,
    hrun.pendingDrains]

/-- Once `draining` is set, `drain()` changes nothing. -/
theorem drain_draining (li : listerInformer Obj) (h : li.draining = true) :
    drain li = some li := by
  simp [drain, shouldDrain, h]

/-- The drain goroutine on a store of domain objects `C`, with
`listerHasStopped` still open: one Deleted event per object, then the close of
`listerHasStopped`, then the drained callback. -/
theorem drainGoroutine_objects (li : listerInformer Obj) (C : List Obj)
    (hC : li.store = C.map Value.object) (honce : li.stopListerOnce = false)
    (hopen : li.listerHasStopped = false) :
    drainGoroutine li
      = some { li with
          stopListerOnce := true, listerHasStopped := true,
          pendingDrains := li.pendingDrains - 1,
          trace := li.trace
            ++ (C.map fun x =>
                  Effect.events Chan.listerHasStopped { Type_ := EventType.Deleted, Object := x })
            ++ [Effect.close Chan.listerHasStopped, Effect.drained li.namespace_] } := by
  simp [drainGoroutine, drainDeferred, stopListerInformer, hC, drainResources_objects,
    honce, hopen]

/-! ## What every reachable state satisfies -/

theorem Inv_newListerInformer (ns : String) :
    Inv (newListerInformer ns : listerInformer Obj) := by
  constructor <;> simp [newListerInformer, closedIn]

/-- Every call that returns keeps `Inv`. -/
theorem exec_Inv (li li1 : listerInformer Obj) (c : Call Obj) (hinv : Inv li)
    (h : exec li c = some li1) : Inv li1 := by
  obtain ⟨h1, h2, h3, h4, h5⟩ := hinv
  cases c with
  | OnAdd obj =>
    simp only [exec, Option.some.injEq] at h
    subst h
    rw [OnAdd_eq]
    constructor <;> simp_all [closedIn_append, closedIn_map_events]
  | OnUpdate oldObj newObj =>
    simp only [exec, Option.some.injEq] at h
    subst h
    rw [OnUpdate_eq]
    constructor <;> simp_all [closedIn_append, closedIn_map_events]
  | OnDelete obj =>
    simp only [exec, Option.some.injEq] at h
    subst h
    rw [OnDelete_eq]
    constructor <;> simp_all [closedIn_append, closedIn_map_events]
  | informerStore store =>
    simp only [exec, Option.some.injEq] at h
    subst h
    constructor <;> simp_all
  | informerHasSynced =>
    simp only [exec, Option.some.injEq] at h
    subst h
    constructor <;> simp_all
  | drain =>
    simp only [exec, drain, shouldDrain, stopInformer] at h
    by_cases hd : li.draining = true
    · simp [hd] at h
      subst h
      exact ⟨h1, h2, h3, h4, h5⟩
    · by_cases hs : li.stoppedInformer = true
      · simp [hd, hs] at h
      · simp [hd, hs] at h
        subst h
        constructor <;> simp_all [closedIn_append, closedIn]
  | stop =>
    simp only [exec, stop, stopListerInformer, stopInformer] at h
    by_cases ho : li.stopInformerOnce = true
    · simp [ho] at h
      subst h
      exact ⟨h1, h2, h3, h4, h5⟩
    · by_cases hl : li.stopListerOnce = true
      · by_cases hs : li.stoppedInformer = true
        · simp [ho, hl, hs] at h
        · simp [ho, hl, hs] at h
          subst h
          constructor <;> simp_all [closedIn_append, closedIn]
      · by_cases hc : li.listerHasStopped = true
        · simp [ho, hl, hc] at h
        · by_cases hs : li.stoppedInformer = true
          · simp [ho, hl, hc, hs] at h
          · simp [ho, hl, hc, hs] at h
            subst h
            constructor <;> simp_all [closedIn_append, closedIn]
  | drainGoroutine =>
    simp only [exec] at h
    by_cases hp : li.pendingDrains = 0
    · simp [hp] at h
      subst h
      exact ⟨h1, h2, h3, h4, h5⟩
    · have hsi := h2 hp
      simp only [hp, if_false, drainGoroutine, drainDeferred, stopListerInformer,
        drainResources_eq] at h
      by_cases hl : li.stopListerOnce = true
      · simp [hl] at h
        subst h
        constructor <;> simp_all [closedIn_append, closedIn_map_events, closedIn]
      · by_cases hc : li.listerHasStopped = true
        · simp [hl, hc] at h
        · simp [hl, hc] at h
          subst h
          constructor <;> simp_all [closedIn_append, closedIn_map_events, closedIn]

/-- Every state reached by calls from a state with `Inv` has `Inv`. -/
theorem run_Inv (calls : List (Call Obj)) (li li1 : listerInformer Obj) (hinv : Inv li)
    (h : run li calls = some li1) : Inv li1 := by
  induction calls generalizing li with
  | nil =>
    simp only [run, Option.some.injEq] at h
    exact h ▸ hinv
  | cons c cs ih =>
    simp only [run] at h
    cases hc : exec li c with
    | none => simp [hc] at h
    | some li2 =>
      simp only [hc, Option.some_bind] at h
      exact ih li2 (exec_Inv li li2 c hinv hc) h

/-- Every call other than `stop()` keeps the closes of the trace in order. -/
theorem exec_closesInOrder (li li1 : listerInformer Obj) (c : Call Obj) (hinv : Inv li)
    (hord : closesInOrder false li.trace = true) (hc : c ≠ Call.stop)
    (h : exec li c = some li1) : closesInOrder false li1.trace = true := by
  obtain ⟨h1, h2, h3, h4, h5⟩ := hinv
  cases c with
  | OnAdd obj =>
    simp only [exec, Option.some.injEq] at h
    subst h
    rw [OnAdd_eq]
    simp [closesInOrder_append, closesInOrder_map_events, hord]
  | OnUpdate oldObj newObj =>
    simp only [exec, Option.some.injEq] at h
    subst h
    rw [OnUpdate_eq]
    simp [closesInOrder_append, closesInOrder_map_events, hord]
  | OnDelete obj =>
    simp only [exec, Option.some.injEq] at h
    subst h
    rw [OnDelete_eq]
    simp [closesInOrder_append, closesInOrder_map_events, hord]
  | informerStore store =>
    simp only [exec, Option.some.injEq] at h
    subst h
    exact hord
  | informerHasSynced =>
    simp only [exec, Option.some.injEq] at h
    subst h
    exact hord
  | stop => exact absurd rfl hc
  | drain =>
    simp only [exec, drain, shouldDrain, stopInformer] at h
    by_cases hd : li.draining = true
    · simp [hd] at h
      subst h
      exact hord
    · by_cases hs : li.stoppedInformer = true
      · simp [hd, hs] at h
      · simp [hd, hs] at h
        subst h
        simp [closesInOrder_append, closesInOrder, hord]
  | drainGoroutine =>
    simp only [exec] at h
    by_cases hp : li.pendingDrains = 0
    · simp [hp] at h
      subst h
      exact hord
    · have hsi := h2 hp
      simp only [hp, if_false, drainGoroutine, drainDeferred, stopListerInformer,
        drainResources_eq] at h
      by_cases hl : li.stopListerOnce = true
      · simp [hl] at h
        subst h
        simp [closesInOrder_append, closesInOrder_map_events, closesInOrder, hord]
      · by_cases hcl : li.listerHasStopped = true
        · simp [hl, hcl] at h
        · simp [hl, hcl] at h
          subst h
          simp [closesInOrder_append, closesInOrder_map_events, closesInOrder, hord,
            h5, hsi]

theorem run_closesInOrder (calls : List (Call Obj)) (li li1 : listerInformer Obj)
    (hinv : Inv li) (hord : closesInOrder false li.trace = true)
    (hc : Call.stop ∉ calls) (h : run li calls = some li1) :
    closesInOrder false li1.trace = true := by
  induction calls generalizing li with
  | nil =>
    simp only [run, Option.some.injEq] at h
    exact h ▸ hord
  | cons c cs ih =>
    simp only [run] at h
    simp only [List.mem_cons, not_or] at hc
    cases hx : exec li c with
    | none => simp [hx] at h
    | some li2 =>
      simp only [hx, Option.some_bind] at h
      exact ih li2 (exec_Inv li li2 c hinv hx)
        (exec_closesInOrder li li2 c hinv hord (fun e => hc.1 e.symm) hx) hc.2 h

/-- In every state with `Inv` in which `stop()` has run, `drain()` panics:
`draining` is unset, so `stopInformer()` closes the closed `stoppedInformer`. -/
theorem drain_after_stop (li : listerInformer Obj) (hinv : Inv li)
    (h : li.stopInformerOnce = true) : drain li = none := by
  obtain ⟨hs, hd⟩ := hinv.once_informer h
  simp [drain, shouldDrain, stopInformer, hs, hd]

/-- In every state with `Inv` in which `draining` is set, `stop()` panics:
`stopInformerOnce` has not run, and `stopInformer()` closes the closed
`stoppedInformer`. -/
theorem stop_after_drain (li : listerInformer Obj) (hinv : Inv li)
    (h : li.draining = true) : stop li = none := by
  have hs := hinv.draining_informer h
  have ho : li.stopInformerOnce = false := by
    cases hb : li.stopInformerOnce with
    | false => rfl
    | true => exact absurd h (by simp [(hinv.once_informer hb).2])
  simp only [stop, ho, stopListerInformer, stopInformer]
  by_cases hl : li.stopListerOnce = true
  · simp [hl, hs]
  · by_cases hc : li.listerHasStopped = true
    · simp [hl, hc]
    · simp [hl, hc, hs]

/-- Any number of `drain()` calls on an adapter with `draining` set changes
nothing. -/
theorem run_replicate_drain (li : listerInformer Obj) (h : li.draining = true) (J : Nat) :
    run li (List.replicate J Call.drain) = some li := by
  induction J with
  | zero => rfl
  | succ n ih => simp [List.replicate_succ, run, exec, drain_draining li h, ih]

/-- The drain goroutine with `listerHasStopped` still open, on any store: the
Deleted events of the store, the close of `listerHasStopped`, the drained
callback. -/
theorem drainGoroutine_open (li : listerInformer Obj) (honce : li.stopListerOnce = false)
    (hopen : li.listerHasStopped = false) :
    drainGoroutine li
      = some { li with
          stopListerOnce := true, listerHasStopped := true,
          pendingDrains := li.pendingDrains - 1,
          trace := li.trace
            ++ (li.store.filterMap (newWatchEvent EventType.Deleted)).map
                (Effect.events Chan.listerHasStopped)
            ++ [Effect.close Chan.listerHasStopped, Effect.drained li.namespace_] } := by
  simp [drainGoroutine, drainDeferred, stopListerInformer, drainResources_eq, honce, hopen]

/-! ## The properties of the specification -/

/-- C1 (drain completeness): on a running adapter whose cache holds exactly the
domain objects `C`, `drain()` and the goroutine it starts both complete, and
the events they hand to the sink are all of kind Deleted, are as many as `C`
has objects, and carry exactly the objects of `C`. -/
theorem C1_drain_completeness (li : listerInformer Obj) (C : List Obj)
    (hrun : Running li) (hC : li.store = C.map Value.object) :
    ∃ li1 li2 evs, drain li = some li1 ∧ drainGoroutine li1 = some li2 ∧
      delivered li2.trace = delivered li.trace ++ evs ∧
      (∀ e ∈ evs, e.Type_ = EventType.Deleted) ∧
      evs.length = C.length ∧
      evs.map Event.Object = C := by
  refine ⟨_, _, C.map fun x => { Type_ := EventType.Deleted, Object := x },
    drain_running li hrun, drainGoroutine_objects _ C hC hrun.stopListerOnce
      hrun.listerHasStopped, ?_, ?_, ?_, ?_⟩
  · have h := delivered_map_events Chan.listerHasStopped
      (C.map fun x => ({ Type_ := EventType.Deleted, Object := x } : Event Obj))
    simp only [List.map_map, Function.comp_def] at h
    simp [delivered_append, h, delivered]
  · intro e he
    simp only [List.mem_map] at he
    obtain ⟨x, _, rfl⟩ := he
    rfl
  · simp
  · simp [Function.comp_def]

/-- C1, on the adapter of `test_namespace` caching `pod-1` and `pod-2`. -/
theorem C1_drain_completeness_witness :
    Running exampleInformer ∧
    exampleInformer.store = ["pod-1", "pod-2"].map Value.object ∧
    ∃ li1 li2 evs, drain exampleInformer = some li1 ∧ drainGoroutine li1 = some li2 ∧
      delivered li2.trace = delivered exampleInformer.trace ++ evs ∧
      (∀ e ∈ evs, e.Type_ = EventType.Deleted) ∧
      evs.length = ["pod-1", "pod-2"].length ∧
      evs.map Event.Object = ["pod-1", "pod-2"] :=
  ⟨⟨rfl, rfl, rfl, rfl, rfl, rfl⟩, rfl,
    C1_drain_completeness exampleInformer ["pod-1", "pod-2"]
      ⟨rfl, rfl, rfl, rfl, rfl, rfl⟩ rfl⟩

/-- C2 (drain on an already-stopped adapter), evaluated on the code: on a new
adapter `stop()` returns with both channels closed and `draining` unset, and
the `drain()` that follows does not return normally: it panics, closing the
closed `stoppedInformer`. -/
theorem C2_drain_after_stop_panics :
    ∃ li1, stop (newListerInformer "test_namespace" : listerInformer String) = some li1 ∧
      li1.stoppedInformer = true ∧ li1.listerHasStopped = true ∧ li1.draining = false ∧
      drain li1 = none :=
  ⟨_, rfl, rfl, rfl, rfl, rfl⟩

/-- C3 as stated fails inside `stop()`: on a new adapter the first statement of
its body, `stopListerInformer()`, leaves `listerHasStopped` closed while
`stoppedInformer` is still open; `stopInformer()` closes it only afterwards, so
the trace of `stop()` has its closes out of order. -/
theorem C3_stop_closes_lister_first :
    ∃ li1 li2 : listerInformer String,
      stopListerInformer
        { (newListerInformer "test_namespace" : listerInformer String) with
          stopInformerOnce := true } = some li1 ∧
      li1.listerHasStopped = true ∧ li1.stoppedInformer = false ∧
      stopInformer li1 = some li2 ∧
      stop (newListerInformer "test_namespace") = some li2 ∧
      li2.trace = [Effect.close Chan.listerHasStopped, Effect.close Chan.stoppedInformer] ∧
      closesInOrder false li2.trace = false :=
  ⟨_, _, rfl, rfl, rfl, rfl, rfl, rfl, rfl⟩

/-- C3, amended: in every state that a sequence of calls (callbacks, `drain()`,
its goroutine, `stop()`, store updates) reaches from a new adapter without
panicking, `listerHasStopped` is closed only if `stoppedInformer` is closed;
and when no `stop()` is among the calls, this held at every moment of the run:
each `close(listerHasStopped)` of the trace came with `stoppedInformer` closed
already. -/
theorem C3_channel_order (ns : String) (calls : List (Call Obj)) (li : listerInformer Obj)
    (h : run (newListerInformer ns) calls = some li) :
    (li.listerHasStopped = true → li.stoppedInformer = true) ∧
    (Call.stop ∉ calls → closesInOrder false li.trace = true) :=
  ⟨(run_Inv calls _ li (Inv_newListerInformer ns) h).lister_informer,
    fun hc => run_closesInOrder calls _ li (Inv_newListerInformer ns) rfl hc h⟩

/-- C3 amended, on a drain of the pods `pod-1` and `pod-2`. -/
theorem C3_channel_order_witness :
    run (newListerInformer "test_namespace")
      [Call.informerStore [Value.object "pod-1", Value.object "pod-2"],
        Call.drain, Call.drainGoroutine] = some exampleDrained ∧
    (exampleDrained.listerHasStopped = true → exampleDrained.stoppedInformer = true) ∧
    (Call.stop ∉ [Call.informerStore [Value.object "pod-1", Value.object "pod-2"],
        Call.drain, Call.drainGoroutine] → closesInOrder false exampleDrained.trace = true) :=
  ⟨rfl, C3_channel_order "test_namespace"
    [Call.informerStore [Value.object "pod-1", Value.object "pod-2"],
      Call.drain, Call.drainGoroutine] exampleDrained rfl⟩

/-- C4 (stop is safe in every reachable state), evaluated on the code: after a
completed drain of a new adapter, and also right after the `drain()` call,
`stop()` does not return normally: it panics, closing the closed
`stoppedInformer`. -/
theorem C4_stop_after_drain_panics :
    (∃ li1, run (newListerInformer "test_namespace" : listerInformer String)
        [Call.drain, Call.drainGoroutine] = some li1 ∧ stop li1 = none) ∧
    (∃ li1, drain (newListerInformer "test_namespace" : listerInformer String) = some li1 ∧
        stop li1 = none) :=
  ⟨⟨_, rfl, rfl⟩, ⟨_, rfl, rfl⟩⟩

/-- C5 (drain idempotence): `K >= 1` calls of `drain()` on a running adapter
leave the state that the first call alone leaves; a call after the first
changes nothing (no channel closed, no event delivered, no goroutine started);
exactly one goroutine is started, it completes, and with it the drained
callback has been invoked exactly once more than before, with the adapter's
namespace; further `drain()` calls after that change nothing either. -/
theorem C5_drain_idempotence (li : listerInformer Obj) (K : Nat) (hrun : Running li)
    (hK : 1 ≤ K) :
    ∃ li1, drain li = some li1 ∧
      run li (List.replicate K Call.drain) = some li1 ∧
      drain li1 = some li1 ∧
      li1.pendingDrains = 1 ∧
      ∃ li2, drainGoroutine li1 = some li2 ∧
        li2.pendingDrains = 0 ∧
        drainedCalls li2.trace = drainedCalls li.trace ++ [li.namespace_] ∧
        ∀ J, run li2 (List.replicate J Call.drain) = some li2 := by
  obtain ⟨n, rfl⟩ : ∃ n, K = n + 1 := ⟨K - 1, by omega⟩
  refine ⟨_, drain_running li hrun, ?_, drain_draining _ rfl, rfl, _,
    drainGoroutine_open _ hrun.stopListerOnce hrun.listerHasStopped, rfl, ?_, ?_⟩
  · simp only [List.replicate_succ, run, exec, drain_running li hrun, Option.some_bind]
    exact run_replicate_drain _ rfl n
  · simp [drainedCalls_append, drainedCalls_map_events, drainedCalls]
  · intro J
    exact run_replicate_drain _ rfl J

/-- C5, with three `drain()` calls on the adapter of `test_namespace`. -/
theorem C5_drain_idempotence_witness :
    Running exampleInformer ∧ 1 ≤ 3 ∧
    ∃ li1, drain exampleInformer = some li1 ∧
      run exampleInformer (List.replicate 3 Call.drain) = some li1 ∧
      drain li1 = some li1 ∧
      li1.pendingDrains = 1 ∧
      ∃ li2, drainGoroutine li1 = some li2 ∧
        li2.pendingDrains = 0 ∧
        drainedCalls li2.trace
          = drainedCalls exampleInformer.trace ++ [exampleInformer.namespace_] ∧
        ∀ J, run li2 (List.replicate J Call.drain) = some li2 :=
  ⟨⟨rfl, rfl, rfl, rfl, rfl, rfl⟩, by decide,
    C5_drain_idempotence exampleInformer 3 ⟨rfl, rfl, rfl, rfl, rfl, rfl⟩ (by decide)⟩

/-- C6 (double stop): on a running adapter `stop()` returns with both lifecycle
channels closed, and a second `stop()` returns as well and leaves exactly the
state of the first. -/
theorem C6_double_stop (li : listerInformer Obj) (hrun : Running li) :
    ∃ li1, stop li = some li1 ∧ stop li1 = some li1 ∧
      run li [Call.stop, Call.stop] = run li [Call.stop] ∧
      li1.stoppedInformer = true ∧ li1.listerHasStopped = true := by
  have h1 : stop li = some { li with
      stopInformerOnce := true, stopListerOnce := true, listerHasStopped := true,
      stoppedInformer := true,
      trace := li.trace ++ [Effect.close Chan.listerHasStopped]
        ++ [Effect.close Chan.stoppedInformer] } := by
    simp [stop, stopListerInformer, stopInformer, hrun.stopInformerOnce,
      hrun.stopListerOnce, hrun.listerHasStopped, hrun.stoppedInformer]
  refine ⟨_, h1, by simp [stop], ?_, rfl, rfl⟩
  simp only [run, exec, h1, Option.some_bind]
  simp [stop]

/-- C6, on the adapter of `test_namespace`. -/
theorem C6_double_stop_witness :
    Running exampleInformer ∧
    ∃ li1, stop exampleInformer = some li1 ∧ stop li1 = some li1 ∧
      run exampleInformer [Call.stop, Call.stop] = run exampleInformer [Call.stop] ∧
      li1.stoppedInformer = true ∧ li1.listerHasStopped = true :=
  ⟨⟨rfl, rfl, rfl, rfl, rfl, rfl⟩, C6_double_stop exampleInformer ⟨rfl, rfl, rfl, rfl, rfl, rfl⟩⟩

/-- C7 (tombstone recovery): `OnDelete` of a `DeletedFinalStateUnknown` that
wraps the domain object `X` hands the sink exactly one event, of kind Deleted,
whose object is `X` itself; nothing else of the adapter changes. -/
theorem C7_tombstone_recovery (li : listerInformer Obj) (key : String) (X : Obj) :
    newWatchEvent EventType.Deleted (Value.tombstone key (Value.object X))
      = some { Type_ := EventType.Deleted, Object := X } ∧
    OnDelete li (Value.tombstone key (Value.object X))
      = { li with trace := li.trace ++
          [Effect.events Chan.listerHasStopped { Type_ := EventType.Deleted, Object := X }] } ∧
    delivered (OnDelete li (Value.tombstone key (Value.object X))).trace
      = delivered li.trace ++ [{ Type_ := EventType.Deleted, Object := X }] := by
  refine ⟨rfl, rfl, ?_⟩
  show delivered (li.trace ++ [_]) = _
  simp [delivered_append, delivered]

/-- C8 (malformed Removed notifications are dropped): for a payload that is
neither a domain object nor a tombstone, `newWatchEvent` fails and `OnDelete`
returns the adapter exactly as it was: no event for the sink, flags, channels
and add count unchanged. -/
theorem C8_malformed_delete_dropped (li : listerInformer Obj) (obj : Value Obj)
    (hobj : ∀ x, obj ≠ Value.object x) (htomb : ∀ key v, obj ≠ Value.tombstone key v) :
    newWatchEvent EventType.Deleted obj = none ∧ OnDelete li obj = li ∧
      delivered (OnDelete li obj).trace = delivered li.trace := by
  cases obj with
  | object x => exact absurd rfl (hobj x)
  | tombstone key v => exact absurd rfl (htomb key v)
  | other tag => exact ⟨rfl, rfl, rfl⟩

/-- C8, on a payload that is no object and no tombstone. -/
theorem C8_malformed_delete_dropped_witness :
    (∀ x, (Value.other 7 : Value String) ≠ Value.object x) ∧
    (∀ key v, (Value.other 7 : Value String) ≠ Value.tombstone key v) ∧
    newWatchEvent EventType.Deleted (Value.other 7 : Value String) = none ∧
    OnDelete exampleInformer (Value.other 7) = exampleInformer ∧
    delivered (OnDelete exampleInformer (Value.other 7)).trace
      = delivered exampleInformer.trace :=
  ⟨(fun _ h => by cases h), (fun _ _ h => by cases h),
    C8_malformed_delete_dropped exampleInformer (Value.other 7)
      (fun _ h => by cases h) (fun _ _ h => by cases h)⟩

/-- C9 (Added translation): `OnAdd` of a domain object `X` hands the sink
exactly one event, `Event{Added, X}`, and then calls `incAddCount` once, which
raises the forwarded-add counter by exactly one; nothing else changes. -/
theorem C9_added_translation (li : listerInformer Obj) (X : Obj) :
    OnAdd li (Value.object X)
      = { li with
          lllw := li.lllw.incAddCount,
          trace := li.trace ++
            [Effect.events Chan.listerHasStopped { Type_ := EventType.Added, Object := X }] } ∧
    delivered (OnAdd li (Value.object X)).trace
      = delivered li.trace ++ [{ Type_ := EventType.Added, Object := X }] ∧
    (OnAdd li (Value.object X)).lllw.addCount = li.lllw.addCount + 1 ∧
    (OnAdd li (Value.object X)).lllw.listCount = li.lllw.listCount := by
  refine ⟨rfl, ?_, rfl, rfl⟩
  show delivered (li.trace ++ [_]) = _
  simp [delivered_append, delivered]

/-- C10 (Updated translation): `OnUpdate(old, new)` with `new` the domain object
`X` hands the sink exactly one event, `Event{Modified, X}`; the resulting state
is the same for any two values of `old`, and the forwarded-add counter is
unchanged. -/
theorem C10_updated_translation (li : listerInformer Obj) (oldObj oldObj2 : Value Obj)
    (X : Obj) :
    OnUpdate li oldObj (Value.object X)
      = { li with trace := li.trace ++
          [Effect.events Chan.listerHasStopped { Type_ := EventType.Modified, Object := X }] } ∧
    delivered (OnUpdate li oldObj (Value.object X)).trace
      = delivered li.trace ++ [{ Type_ := EventType.Modified, Object := X }] ∧
    OnUpdate li oldObj (Value.object X) = OnUpdate li oldObj2 (Value.object X) ∧
    (OnUpdate li oldObj (Value.object X)).lllw = li.lllw := by
  refine ⟨rfl, ?_, rfl, rfl⟩
  show delivered (li.trace ++ [_]) = _
  simp [delivered_append, delivered]

/-! ## Synchronisation -/

theorem hasSynced_iff (li : listerInformer Obj) :
    hasSynced li = true
      ↔ li.informerHasSynced = true ∧ li.lllw.listCount ≤ li.lllw.addCount := by
  simp [hasSynced, listLenListerWatcher.hasReachedListCount]

/-- Announcing the objects `objs` forwards one Added event per object, in
order, raises the add count by their number, and changes nothing else. -/
theorem addAll_eq (objs : List Obj) (li : listerInformer Obj) :
    addAll li objs = { li with
      lllw := { li.lllw with addCount := li.lllw.addCount + objs.length },
      trace := (li.trace ++ objs.map fun x =>
        Effect.events Chan.listerHasStopped { Type_ := EventType.Added, Object := x }) } := by
  induction objs generalizing li with
  | nil => simp [addAll]
  | cons x rest ih =>
    show addAll (OnAdd li (Value.object x)) rest = _
    rw [ih, OnAdd_eq]
    simp [newWatchEvent_object, Nat.add_assoc, Nat.add_comm 1]

theorem addedCount_append (xs ys : List (Event Obj)) :
    addedCount (xs ++ ys) = addedCount xs + addedCount ys := by
  simp [addedCount]

theorem addedCount_map_Added (objs : List Obj) :
    addedCount (objs.map fun x => ({ Type_ := EventType.Added, Object := x } : Event Obj))
      = objs.length := by
  induction objs with
  | nil => rfl
  | cons x rest ih => simp_all [addedCount]

theorem addedCount_filterMap_Deleted (rs : List (Value Obj)) :
    addedCount (rs.filterMap (newWatchEvent EventType.Deleted)) = 0 := by
  simp only [addedCount, List.countP_eq_zero, List.mem_filterMap]
  rintro e ⟨v, _, hv⟩
  cases v with
  | object x => simp only [newWatchEvent_object, Option.some.injEq] at hv; subst hv; simp
  | tombstone key w =>
    cases w <;> simp [newWatchEvent_tombstone] at hv
    subst hv; simp
  | other tag => simp [newWatchEvent_other] at hv

/-- The events that `newWatchEvent` makes carry the kind asked for. -/
theorem newWatchEvent_Type (t : EventType) (v : Value Obj) (e : Event Obj)
    (h : newWatchEvent t v = some e) : e.Type_ = t := by
  cases v with
  | object x => simp only [newWatchEvent_object, Option.some.injEq] at h; subst h; rfl
  | tombstone key w =>
    cases w <;> simp [newWatchEvent_tombstone] at h
    subst h; rfl
  | other tag => simp [newWatchEvent_other] at h

/-- No call lowers the sync status of the informer or the add count, and no
call changes the recorded list count. -/
theorem exec_sync (li li1 : listerInformer Obj) (c : Call Obj) (h : exec li c = some li1) :
    (li.informerHasSynced = true → li1.informerHasSynced = true) ∧
    li1.lllw.listCount = li.lllw.listCount ∧
    li.lllw.addCount ≤ li1.lllw.addCount := by
  cases c with
  | OnAdd obj =>
    simp only [exec, Option.some.injEq] at h
    subst h
    rw [OnAdd_eq]
    simp
  | OnUpdate oldObj newObj =>
    simp only [exec, Option.some.injEq] at h
    subst h
    rw [OnUpdate_eq]
    simp
  | OnDelete obj =>
    simp only [exec, Option.some.injEq] at h
    subst h
    rw [OnDelete_eq]
    simp
  | informerStore store =>
    simp only [exec, Option.some.injEq] at h
    subst h
    simp
  | informerHasSynced =>
    simp only [exec, Option.some.injEq] at h
    subst h
    simp
  | drain =>
    simp only [exec, drain, shouldDrain, stopInformer] at h
    by_cases hd : li.draining = true
    · simp [hd] at h
      subst h
      simp
    · by_cases hs : li.stoppedInformer = true
      · simp [hd, hs] at h
      · simp [hd, hs] at h
        subst h
        simp
  | stop =>
    simp only [exec, stop, stopListerInformer, stopInformer] at h
    by_cases ho : li.stopInformerOnce = true
    · simp [ho] at h
      subst h
      simp
    · by_cases hl : li.stopListerOnce = true
      · by_cases hs : li.stoppedInformer = true
        · simp [ho, hl, hs] at h
        · simp [ho, hl, hs] at h
          subst h
          simp
      · by_cases hc : li.listerHasStopped = true
        · simp [ho, hl, hc] at h
        · by_cases hs : li.stoppedInformer = true
          · simp [ho, hl, hc, hs] at h
          · simp [ho, hl, hc, hs] at h
            subst h
            simp
  | drainGoroutine =>
    simp only [exec] at h
    by_cases hp : li.pendingDrains = 0
    · simp [hp] at h
      subst h
      simp
    · simp only [hp, if_false, drainGoroutine, drainDeferred, stopListerInformer,
        drainResources_eq] at h
      by_cases hl : li.stopListerOnce = true
      · simp [hl] at h
        subst h
        simp
      · by_cases hc : li.listerHasStopped = true
        · simp [hl, hc] at h
        · simp [hl, hc] at h
          subst h
          simp

/-- Once `hasSynced` is true, every call that returns leaves it true. -/
theorem exec_hasSynced (li li1 : listerInformer Obj) (c : Call Obj)
    (h : exec li c = some li1) (hs : hasSynced li = true) : hasSynced li1 = true := by
  obtain ⟨h1, h2, h3⟩ := exec_sync li li1 c h
  rw [hasSynced_iff] at hs ⊢
  exact ⟨h1 hs.1, by omega⟩

theorem addedCount_newWatchEvent (t : EventType) (v : Value Obj) :
    addedCount (newWatchEvent t v).toList
      = if t = EventType.Added then (newWatchEvent t v).toList.length else 0 := by
  cases h : newWatchEvent t v with
  | none => simp [addedCount]
  | some e =>
    have ht := newWatchEvent_Type t v e h
    by_cases hA : t = EventType.Added <;> simp [addedCount, ht, hA]

/-- Every call that returns keeps the add count equal to the number of Added
events handed to the sink. -/
theorem exec_addCount (li li1 : listerInformer Obj) (c : Call Obj)
    (hcount : li.lllw.addCount = addedCount (delivered li.trace))
    (h : exec li c = some li1) :
    li1.lllw.addCount = addedCount (delivered li1.trace) := by
  cases c with
  | OnAdd obj =>
    simp only [exec, Option.some.injEq] at h
    subst h
    rw [OnAdd_eq]
    simp [delivered_append, delivered_map_events, addedCount_append,
      addedCount_newWatchEvent, hcount]
  | OnUpdate oldObj newObj =>
    simp only [exec, Option.some.injEq] at h
    subst h
    rw [OnUpdate_eq]
    simp [delivered_append, delivered_map_events, addedCount_append,
      addedCount_newWatchEvent, hcount]
  | OnDelete obj =>
    simp only [exec, Option.some.injEq] at h
    subst h
    rw [OnDelete_eq]
    simp [delivered_append, delivered_map_events, addedCount_append,
      addedCount_newWatchEvent, hcount]
  | informerStore store =>
    simp only [exec, Option.some.injEq] at h
    subst h
    exact hcount
  | informerHasSynced =>
    simp only [exec, Option.some.injEq] at h
    subst h
    exact hcount
  | drain =>
    simp only [exec, drain, shouldDrain, stopInformer] at h
    by_cases hd : li.draining = true
    · simp [hd] at h
      subst h
      exact hcount
    · by_cases hs : li.stoppedInformer = true
      · simp [hd, hs] at h
      · simp [hd, hs] at h
        subst h
        simp [delivered_append, delivered, addedCount_append, hcount, addedCount]
  | stop =>
    simp only [exec, stop, stopListerInformer, stopInformer] at h
    by_cases ho : li.stopInformerOnce = true
    · simp [ho] at h
      subst h
      exact hcount
    · by_cases hl : li.stopListerOnce = true
      · by_cases hs : li.stoppedInformer = true
        · simp [ho, hl, hs] at h
        · simp [ho, hl, hs] at h
          subst h
          simp [delivered_append, delivered, addedCount_append, hcount, addedCount]
      · by_cases hc : li.listerHasStopped = true
        · simp [ho, hl, hc] at h
        · by_cases hs : li.stoppedInformer = true
          · simp [ho, hl, hc, hs] at h
          · simp [ho, hl, hc, hs] at h
            subst h
            simp [delivered_append, delivered, addedCount_append, hcount, addedCount]
  | drainGoroutine =>
    simp only [exec] at h
    by_cases hp : li.pendingDrains = 0
    · simp [hp] at h
      subst h
      exact hcount
    · simp only [hp, if_false, drainGoroutine, drainDeferred, stopListerInformer,
        drainResources_eq] at h
      by_cases hl : li.stopListerOnce = true
      · simp [hl] at h
        subst h
        simp [delivered_append, delivered_map_events, delivered, addedCount_append,
          addedCount_filterMap_Deleted, hcount]
      · by_cases hc : li.listerHasStopped = true
        · simp [hl, hc] at h
        · simp [hl, hc] at h
          subst h
          simp [delivered_append, delivered_map_events, delivered, addedCount_append,
            addedCount_filterMap_Deleted, hcount]

/-- What `exec_hasSynced` and `exec_addCount` say, along a sequence of calls. -/
theorem run_sync (calls : List (Call Obj)) (li li1 : listerInformer Obj)
    (h : run li calls = some li1) :
    (hasSynced li = true → hasSynced li1 = true) ∧
    li1.lllw.listCount = li.lllw.listCount ∧
    (li.lllw.addCount = addedCount (delivered li.trace) →
      li1.lllw.addCount = addedCount (delivered li1.trace)) := by
  induction calls generalizing li with
  | nil =>
    simp only [run, Option.some.injEq] at h
    subst h
    exact ⟨id, rfl, id⟩
  | cons c cs ih =>
    simp only [run] at h
    cases hx : exec li c with
    | none => simp [hx] at h
    | some li2 =>
      simp only [hx, Option.some_bind] at h
      obtain ⟨h1, h2, h3⟩ := ih li2 h
      exact ⟨fun hs => h1 (exec_hasSynced li li2 c hx hs),
        h2.trans (exec_sync li li2 c hx).2.1,
        fun hc => h3 (exec_addCount li li2 c hc hx)⟩

/-! ## The properties of the specification: synchronisation -/

/-- C11 (hasSynced is the derived sync state): `hasSynced()` is true exactly
when the informer reports synced and the forwarded-add count has reached the
recorded list count.  It is false on a new adapter and after the bulk fetch
while the informer has not synced; after a bulk fetch of `N` objects and the
announcement of `objs` it is true exactly if the informer has synced and at
least `N` Added events were forwarded; with the twenty pods of the test it is
false after nineteen Added events and true after twenty. -/
theorem C11_hasSynced_derived (li : listerInformer Obj) (ns : String) (N : Nat)
    (objs : List Obj) (b : Bool) :
    (hasSynced li = true
      ↔ li.informerHasSynced = true ∧ li.lllw.listCount ≤ li.lllw.addCount) ∧
    hasSynced (newListerInformer ns : listerInformer Obj) = false ∧
    hasSynced (informerList (newListerInformer ns : listerInformer Obj) N) = false ∧
    hasSynced (addAll { informerList (newListerInformer ns) N with informerHasSynced := b } objs)
      = (b && decide (N ≤ objs.length)) ∧
    hasSynced (addAll { exampleListed with informerHasSynced := true } (createPodList 19))
      = false ∧
    hasSynced (addAll { exampleListed with informerHasSynced := true } (createPodList 20))
      = true := by
  refine ⟨hasSynced_iff li, rfl, rfl, ?_, rfl, rfl⟩
  rw [addAll_eq]
  simp [hasSynced, listLenListerWatcher.hasReachedListCount, informerList,
    listLenListerWatcher.list, newListerInformer]

/-- C12 (sync monotonicity): from a state in which `hasSynced()` is true, every
sequence of notifications, `drain()` and `stop()` calls, goroutine runs and
informer steps that returns ends in a state in which `hasSynced()` is true. -/
theorem C12_sync_monotone (li : listerInformer Obj) (calls : List (Call Obj))
    (hs : hasSynced li = true) :
    ∀ li1, run li calls = some li1 → hasSynced li1 = true :=
  fun li1 h => (run_sync calls li li1 h).1 hs

/-- C12, on the synced adapter of `test_namespace`: a removal, a drain with its
goroutine and a second `drain()` leave it synced. -/
theorem C12_sync_monotone_witness :
    hasSynced exampleSynced = true ∧
    (run exampleSynced [Call.OnDelete (Value.object "pod-1"),
      Call.informerStore [Value.object "pod-2"], Call.drain, Call.drainGoroutine,
      Call.drain]).isSome = true ∧
    ∀ li1, run exampleSynced [Call.OnDelete (Value.object "pod-1"),
      Call.informerStore [Value.object "pod-2"], Call.drain, Call.drainGoroutine,
      Call.drain] = some li1 → hasSynced li1 = true :=
  ⟨rfl, rfl, C12_sync_monotone exampleSynced _ rfl⟩

/-- C13 (count equivalence): after a bulk fetch of the `N` objects `objs`, with
no Added event forwarded before.  When nothing else changes and the informer
has announced the first `k` of them, exactly those `k` Added events have been
handed to the sink; `hasSynced()` can be true at that moment only if `k` is at
least `N`, so that exactly `N` Added events have been delivered; and it is true
once all `N` are delivered and the informer has synced.  Whatever calls happen
instead, `hasSynced()` is never true with fewer than `N` Added events
delivered. -/
theorem C13_count_equivalence (li : listerInformer Obj) (objs : List Obj) (k : Nat)
    (b : Bool) (calls : List (Call Obj))
    (hlist : li.lllw.listCount = objs.length) (hzero : li.lllw.addCount = 0)
    (hnone : addedCount (delivered li.trace) = 0) :
    delivered (addAll li (objs.take k)).trace
      = delivered li.trace
        ++ (objs.take k).map (fun x => { Type_ := EventType.Added, Object := x }) ∧
    addedCount (delivered (addAll li (objs.take k)).trace) = min k objs.length ∧
    (hasSynced { addAll li (objs.take k) with informerHasSynced := b } = true →
      addedCount (delivered (addAll li (objs.take k)).trace) = objs.length) ∧
    hasSynced { addAll li objs with informerHasSynced := true } = true ∧
    (∀ li1, run li calls = some li1 → hasSynced li1 = true →
      objs.length ≤ addedCount (delivered li1.trace)) := by
  have hdel : delivered (addAll li (objs.take k)).trace
      = delivered li.trace
        ++ (objs.take k).map (fun x => { Type_ := EventType.Added, Object := x }) := by
    have h := delivered_map_events Chan.listerHasStopped
      ((objs.take k).map fun x => ({ Type_ := EventType.Added, Object := x } : Event Obj))
    simp only [List.map_map, Function.comp_def] at h
    rw [addAll_eq]
    show delivered (li.trace ++ _) = _
    rw [delivered_append, h]
  have hcnt : addedCount (delivered (addAll li (objs.take k)).trace) = min k objs.length := by
    rw [hdel, addedCount_append, addedCount_map_Added, hnone]
    simp
  refine ⟨hdel, hcnt, ?_, ?_, ?_⟩
  · intro hs
    rw [hasSynced_iff] at hs
    have h2 := hs.2
    rw [addAll_eq] at h2
    simp only [hlist, hzero, List.length_take] at h2
    rw [hcnt]
    omega
  · rw [hasSynced_iff, addAll_eq]
    simp [hlist]
  · intro li1 hrun hs
    obtain ⟨_, h2, h3⟩ := run_sync calls li li1 hrun
    rw [hasSynced_iff] at hs
    have h4 := h3 (by rw [hzero, hnone])
    omega

/-- C13, on the twenty pods of the test. -/
theorem C13_count_equivalence_witness :
    exampleListed.lllw.listCount = (createPodList 20).length ∧
    exampleListed.lllw.addCount = 0 ∧
    addedCount (delivered exampleListed.trace) = 0 ∧
    delivered (addAll exampleListed ((createPodList 20).take 20)).trace
      = delivered exampleListed.trace
        ++ ((createPodList 20).take 20).map
            (fun x => { Type_ := EventType.Added, Object := x }) ∧
    addedCount (delivered (addAll exampleListed ((createPodList 20).take 20)).trace)
      = min 20 (createPodList 20).length ∧
    (hasSynced { addAll exampleListed ((createPodList 20).take 20) with
        informerHasSynced := true } = true →
      addedCount (delivered (addAll exampleListed ((createPodList 20).take 20)).trace)
        = (createPodList 20).length) ∧
    hasSynced { addAll exampleListed (createPodList 20) with informerHasSynced := true }
      = true ∧
    (∀ li1, run exampleListed [Call.informerHasSynced, Call.OnAdd (Value.object "pod-1")]
        = some li1 → hasSynced li1 = true →
      (createPodList 20).length ≤ addedCount (delivered li1.trace)) :=
  ⟨rfl, rfl, rfl,
    C13_count_equivalence exampleListed (createPodList 20) 20 true
      [Call.informerHasSynced, Call.OnAdd (Value.object "pod-1")] rfl rfl rfl⟩

/-! ## The drain sequence in reachable states -/

theorem DrainInv_newListerInformer (ns : String) :
    DrainInv (newListerInformer ns : listerInformer Obj) := by
  constructor <;> simp [newListerInformer]

/-- Every call that returns keeps `DrainInv`. -/
theorem exec_DrainInv (li li1 : listerInformer Obj) (c : Call Obj) (hinv : Inv li)
    (hd : DrainInv li) (h : exec li c = some li1) : DrainInv li1 := by
  obtain ⟨h1, h2, h3, h4, h5⟩ := hinv
  obtain ⟨d1, d2, d3, d4⟩ := hd
  cases c with
  | OnAdd obj =>
    simp only [exec, Option.some.injEq] at h
    subst h
    rw [OnAdd_eq]
    exact ⟨d1, d2, d3, d4⟩
  | OnUpdate oldObj newObj =>
    simp only [exec, Option.some.injEq] at h
    subst h
    rw [OnUpdate_eq]
    exact ⟨d1, d2, d3, d4⟩
  | OnDelete obj =>
    simp only [exec, Option.some.injEq] at h
    subst h
    rw [OnDelete_eq]
    exact ⟨d1, d2, d3, d4⟩
  | informerStore store =>
    simp only [exec, Option.some.injEq] at h
    subst h
    exact ⟨d1, d2, d3, d4⟩
  | informerHasSynced =>
    simp only [exec, Option.some.injEq] at h
    subst h
    exact ⟨d1, d2, d3, d4⟩
  | drain =>
    simp only [exec, drain, shouldDrain, stopInformer] at h
    by_cases hdr : li.draining = true
    · simp [hdr] at h
      subst h
      exact ⟨d1, d2, d3, d4⟩
    · by_cases hs : li.stoppedInformer = true
      · simp [hdr, hs] at h
      · simp [hdr, hs] at h
        subst h
        have hp : li.pendingDrains = 0 := by
          by_contra hne
          exact hs (h2 hne)
        have hl : li.listerHasStopped = false := by
          cases hb : li.listerHasStopped with
          | false => rfl
          | true => exact absurd (h1 hb) hs
        constructor <;> simp_all
  | stop =>
    simp only [exec, stop, stopListerInformer, stopInformer] at h
    by_cases ho : li.stopInformerOnce = true
    · simp [ho] at h
      subst h
      exact ⟨d1, d2, d3, d4⟩
    · have hpz : li.stoppedInformer = false → li.pendingDrains = 0 := by
        intro hs
        by_contra hne
        simp [h2 hne] at hs
      by_cases hl : li.stopListerOnce = true
      · by_cases hs : li.stoppedInformer = true
        · simp [ho, hl, hs] at h
        · simp [ho, hl, hs] at h
          subst h
          constructor <;> simp_all
      · by_cases hc : li.listerHasStopped = true
        · simp [ho, hl, hc] at h
        · by_cases hs : li.stoppedInformer = true
          · simp [ho, hl, hc, hs] at h
          · simp [ho, hl, hc, hs] at h
            subst h
            have hp := hpz (by simpa using hs)
            constructor <;> simp_all
  | drainGoroutine =>
    simp only [exec] at h
    by_cases hp : li.pendingDrains = 0
    · simp [hp] at h
      subst h
      exact ⟨d1, d2, d3, d4⟩
    · have hopen := d2 hp
      have honce : li.stopListerOnce = false := by rw [d1]; exact hopen
      rw [if_neg hp, drainGoroutine_open li honce hopen] at h
      simp only [Option.some.injEq] at h
      subst h
      constructor
      · rfl
      · intro hne
        exact absurd (show li.pendingDrains - 1 = 0 by omega) hne
      · intro hne
        exact absurd (show li.pendingDrains - 1 = 0 by omega) hne
      · show li.pendingDrains - 1 ≤ 1
        omega

/-- Every state reached by calls from a new adapter has `Inv` and `DrainInv`. -/
theorem run_DrainInv (calls : List (Call Obj)) (li li1 : listerInformer Obj) (hinv : Inv li)
    (hd : DrainInv li) (h : run li calls = some li1) : Inv li1 ∧ DrainInv li1 := by
  induction calls generalizing li with
  | nil =>
    simp only [run, Option.some.injEq] at h
    exact h ▸ ⟨hinv, hd⟩
  | cons c cs ih =>
    simp only [run] at h
    cases hc : exec li c with
    | none => simp [hc] at h
    | some li2 =>
      simp only [hc, Option.some_bind] at h
      exact ih li2 (exec_Inv li li2 c hinv hc) (exec_DrainInv li li2 c hinv hd hc) h

theorem sinkGetsStopChannel_append (xs ys : List (Effect Obj)) :
    sinkGetsStopChannel (xs ++ ys) = (sinkGetsStopChannel xs && sinkGetsStopChannel ys) := by
  simp [sinkGetsStopChannel]

theorem sinkGetsStopChannel_map_events (evs : List (Event Obj)) :
    sinkGetsStopChannel (evs.map (Effect.events Chan.listerHasStopped)) = true := by
  simp [sinkGetsStopChannel]

theorem TraceInv_newListerInformer (ns : String) :
    TraceInv ns (newListerInformer ns : listerInformer Obj) := by
  constructor <;> simp [newListerInformer, sinkGetsStopChannel, drainedCalls]

/-- Every call that returns keeps `TraceInv`. -/
theorem exec_TraceInv (ns : String) (li li1 : listerInformer Obj) (c : Call Obj)
    (hinv : Inv li) (hd : DrainInv li) (ht : TraceInv ns li) (h : exec li c = some li1) :
    TraceInv ns li1 := by
  obtain ⟨h1, h2, h3, h4, h5⟩ := hinv
  obtain ⟨d1, d2, d3, d4⟩ := hd
  obtain ⟨t1, t2, t3⟩ := ht
  cases c with
  | OnAdd obj =>
    simp only [exec, Option.some.injEq] at h
    subst h
    rw [OnAdd_eq]
    exact ⟨t1, by simp [sinkGetsStopChannel_append, sinkGetsStopChannel_map_events, t2],
      by simp [drainedCalls_append, drainedCalls_map_events, t3]⟩
  | OnUpdate oldObj newObj =>
    simp only [exec, Option.some.injEq] at h
    subst h
    rw [OnUpdate_eq]
    exact ⟨t1, by simp [sinkGetsStopChannel_append, sinkGetsStopChannel_map_events, t2],
      by simp [drainedCalls_append, drainedCalls_map_events, t3]⟩
  | OnDelete obj =>
    simp only [exec, Option.some.injEq] at h
    subst h
    rw [OnDelete_eq]
    exact ⟨t1, by simp [sinkGetsStopChannel_append, sinkGetsStopChannel_map_events, t2],
      by simp [drainedCalls_append, drainedCalls_map_events, t3]⟩
  | informerStore store =>
    simp only [exec, Option.some.injEq] at h
    subst h
    exact ⟨t1, t2, t3⟩
  | informerHasSynced =>
    simp only [exec, Option.some.injEq] at h
    subst h
    exact ⟨t1, t2, t3⟩
  | drain =>
    simp only [exec, drain, shouldDrain, stopInformer] at h
    by_cases hdr : li.draining = true
    · simp [hdr] at h
      subst h
      exact ⟨t1, t2, t3⟩
    · by_cases hs : li.stoppedInformer = true
      · simp [hdr, hs] at h
      · simp [hdr, hs] at h
        subst h
        refine ⟨t1, by simp only [sinkGetsStopChannel_append, t2]; rfl, ?_⟩
        simp [drainedCalls_append, drainedCalls, t3, hdr]
  | stop =>
    simp only [exec, stop, stopListerInformer, stopInformer] at h
    by_cases ho : li.stopInformerOnce = true
    · simp [ho] at h
      subst h
      exact ⟨t1, t2, t3⟩
    · have hdf : li.stoppedInformer = false → li.draining = false := by
        intro hs
        cases hb : li.draining with
        | false => rfl
        | true => simp [h3 hb] at hs
      by_cases hl : li.stopListerOnce = true
      · by_cases hs : li.stoppedInformer = true
        · simp [ho, hl, hs] at h
        · simp [ho, hl, hs] at h
          subst h
          have hdr := hdf (by simpa using hs)
          refine ⟨t1, by simp only [sinkGetsStopChannel_append, t2]; rfl, ?_⟩
          simp [drainedCalls_append, drainedCalls, t3, hdr]
      · by_cases hc : li.listerHasStopped = true
        · simp [ho, hl, hc] at h
        · by_cases hs : li.stoppedInformer = true
          · simp [ho, hl, hc, hs] at h
          · simp [ho, hl, hc, hs] at h
            subst h
            have hdr := hdf (by simpa using hs)
            refine ⟨t1, by simp only [sinkGetsStopChannel_append, t2]; rfl, ?_⟩
            simp [drainedCalls_append, drainedCalls, t3, hdr]
  | drainGoroutine =>
    simp only [exec] at h
    by_cases hp : li.pendingDrains = 0
    · simp [hp] at h
      subst h
      exact ⟨t1, t2, t3⟩
    · have hopen := d2 hp
      have honce : li.stopListerOnce = false := by rw [d1]; exact hopen
      rw [if_neg hp, drainGoroutine_open li honce hopen] at h
      simp only [Option.some.injEq] at h
      subst h
      have hp1 : li.pendingDrains - 1 = 0 := by omega
      refine ⟨t1, ?_, ?_⟩
      · simp only [sinkGetsStopChannel_append, sinkGetsStopChannel_map_events, t2]
        rfl
      · simp [drainedCalls_append, drainedCalls_map_events, drainedCalls, t3, hp, d3 hp,
          hp1, t1]

/-- Every state reached by calls from `newListerInformer ns` has `Inv`,
`DrainInv` and `TraceInv ns`. -/
theorem run_TraceInv (ns : String) (calls : List (Call Obj)) (li li1 : listerInformer Obj)
    (hinv : Inv li) (hd : DrainInv li) (ht : TraceInv ns li) (h : run li calls = some li1) :
    Inv li1 ∧ DrainInv li1 ∧ TraceInv ns li1 := by
  induction calls generalizing li with
  | nil =>
    simp only [run, Option.some.injEq] at h
    exact h ▸ ⟨hinv, hd, ht⟩
  | cons c cs ih =>
    simp only [run] at h
    cases hc : exec li c with
    | none => simp [hc] at h
    | some li2 =>
      simp only [hc, Option.some_bind] at h
      exact ih li2 (exec_Inv li li2 c hinv hc) (exec_DrainInv li li2 c hinv hd hc)
        (exec_TraceInv ns li li2 c hinv hd ht hc) h

/-- Every state reached by calls from a new adapter of namespace `ns`. -/
theorem reachable_invariants (ns : String) (calls : List (Call Obj)) (li : listerInformer Obj)
    (h : run (newListerInformer ns) calls = some li) :
    Inv li ∧ DrainInv li ∧ TraceInv ns li :=
  run_TraceInv ns calls _ li (Inv_newListerInformer ns) (DrainInv_newListerInformer ns)
    (TraceInv_newListerInformer ns) h

/-! ## The properties of the specification: the drain sequence -/

/-- C14 (drain completion order): in every state that calls reach from a new
adapter and in which a drain goroutine is started but has not run,
`listerHasStopped` is still open; the goroutine completes, and what it adds to
the trace is, in this order, the synthetic Deleted events of the store, the
close of `listerHasStopped`, and the drained callback. -/
theorem C14_drain_completion_order (ns : String) (calls : List (Call Obj))
    (li : listerInformer Obj) (hreach : run (newListerInformer ns) calls = some li)
    (hp : li.pendingDrains ≠ 0) :
    li.listerHasStopped = false ∧
    ∃ li2, drainGoroutine li = some li2 ∧
      li2.trace = li.trace
        ++ (li.store.filterMap (newWatchEvent EventType.Deleted)).map
            (Effect.events Chan.listerHasStopped)
        ++ [Effect.close Chan.listerHasStopped, Effect.drained ns] ∧
      li2.listerHasStopped = true := by
  obtain ⟨_, hd, ht⟩ := reachable_invariants ns calls li hreach
  have hopen := hd.pending_open hp
  have honce : li.stopListerOnce = false := by rw [hd.once_lister]; exact hopen
  refine ⟨hopen, _, drainGoroutine_open li honce hopen, ?_, rfl⟩
  simp [ht.namespace_eq]

/-- C14, on the adapter of `test_namespace` after `drain()`. -/
theorem C14_drain_completion_order_witness :
    run (newListerInformer "test_namespace")
      [Call.informerStore [Value.object "pod-1", Value.object "pod-2"], Call.drain]
      = some exampleDraining ∧
    exampleDraining.pendingDrains ≠ 0 ∧
    exampleDraining.listerHasStopped = false ∧
    ∃ li2, drainGoroutine exampleDraining = some li2 ∧
      li2.trace = exampleDraining.trace
        ++ (exampleDraining.store.filterMap (newWatchEvent EventType.Deleted)).map
            (Effect.events Chan.listerHasStopped)
        ++ [Effect.close Chan.listerHasStopped, Effect.drained "test_namespace"] ∧
      li2.listerHasStopped = true :=
  ⟨rfl, by decide,
    C14_drain_completion_order "test_namespace"
      [Call.informerStore [Value.object "pod-1", Value.object "pod-2"], Call.drain]
      exampleDraining rfl (by decide)⟩

/-- C15 (drained-callback contract): on a running adapter made for namespace
`ns`, whatever its store holds, the drained callback has not been invoked;
`drain()` and its goroutine complete, after which the callback has been invoked
exactly once, with `ns`; the sink got the Deleted events of the store, none at
all when the store is empty; and a later `drain()` changes nothing. -/
theorem C15_drained_callback (ns : String) (calls : List (Call Obj))
    (li : listerInformer Obj) (hreach : run (newListerInformer ns) calls = some li)
    (hrun : Running li) :
    drainedCalls li.trace = [] ∧
    ∃ li1 li2, drain li = some li1 ∧ drainGoroutine li1 = some li2 ∧
      drainedCalls li1.trace = [] ∧
      drainedCalls li2.trace = [ns] ∧
      delivered li2.trace
        = delivered li.trace ++ li.store.filterMap (newWatchEvent EventType.Deleted) ∧
      (li.store = [] → delivered li2.trace = delivered li.trace) ∧
      drain li2 = some li2 := by
  obtain ⟨_, _, ht⟩ := reachable_invariants ns calls li hreach
  have h0 : drainedCalls li.trace = [] := by
    rw [ht.drained_once]
    simp [hrun.draining]
  refine ⟨h0, _, _, drain_running li hrun,
    drainGoroutine_open _ hrun.stopListerOnce hrun.listerHasStopped, ?_, ?_, ?_, ?_,
    drain_draining _ rfl⟩
  · simp [drainedCalls_append, drainedCalls, h0]
  · simp [drainedCalls_append, drainedCalls_map_events, drainedCalls, h0, ht.namespace_eq]
  · simp [delivered_append, delivered_map_events, delivered]
  · intro hempty
    simp [delivered_append, delivered, hempty]

/-- C15, on a new adapter, whose store is empty. -/
theorem C15_drained_callback_witness :
    run (newListerInformer "test_namespace" : listerInformer String) [] =
      some (newListerInformer "test_namespace") ∧
    Running (newListerInformer "test_namespace" : listerInformer String) ∧
    drainedCalls (newListerInformer "test_namespace" : listerInformer String).trace = [] ∧
    ∃ li1 li2, drain (newListerInformer "test_namespace" : listerInformer String) = some li1 ∧
      drainGoroutine li1 = some li2 ∧
      drainedCalls li1.trace = [] ∧
      drainedCalls li2.trace = ["test_namespace"] ∧
      delivered li2.trace
        = delivered (newListerInformer "test_namespace" : listerInformer String).trace
          ++ (newListerInformer "test_namespace" : listerInformer String).store.filterMap
              (newWatchEvent EventType.Deleted) ∧
      ((newListerInformer "test_namespace" : listerInformer String).store = [] →
        delivered li2.trace
          = delivered (newListerInformer "test_namespace" : listerInformer String).trace) ∧
      drain li2 = some li2 :=
  ⟨rfl, ⟨rfl, rfl, rfl, rfl, rfl, rfl⟩,
    C15_drained_callback "test_namespace" [] (newListerInformer "test_namespace") rfl
      ⟨rfl, rfl, rfl, rfl, rfl, rfl⟩⟩

/-- C16 (stop emits nothing): on a running adapter, whatever its store holds,
`stop()` returns with both lifecycle channels closed; it hands no event to the
sink, does not invoke the drained callback, starts no goroutine, and leaves the
drain flag, the store and the counts as they were. -/
theorem C16_stop_emits_nothing (li : listerInformer Obj) (hrun : Running li) :
    ∃ li1, stop li = some li1 ∧
      li1.stoppedInformer = true ∧ li1.listerHasStopped = true ∧
      delivered li1.trace = delivered li.trace ∧
      drainedCalls li1.trace = drainedCalls li.trace ∧
      li1.draining = li.draining ∧ isDraining li1 = false ∧
      li1.pendingDrains = 0 ∧ li1.store = li.store ∧ li1.lllw = li.lllw := by
  have h1 : stop li = some { li with
      stopInformerOnce := true, stopListerOnce := true, listerHasStopped := true,
      stoppedInformer := true,
      trace := li.trace ++ [Effect.close Chan.listerHasStopped]
        ++ [Effect.close Chan.stoppedInformer] } := by
    simp [stop, stopListerInformer, stopInformer, hrun.stopInformerOnce,
      hrun.stopListerOnce, hrun.listerHasStopped, hrun.stoppedInformer]
  refine ⟨_, h1, rfl, rfl, ?_, ?_, rfl, hrun.draining, hrun.pendingDrains, rfl, rfl⟩
  · simp [delivered_append, delivered]
  · simp [drainedCalls_append, drainedCalls]

/-- C16, on the adapter of `test_namespace` caching two pods. -/
theorem C16_stop_emits_nothing_witness :
    Running exampleInformer ∧
    ∃ li1, stop exampleInformer = some li1 ∧
      li1.stoppedInformer = true ∧ li1.listerHasStopped = true ∧
      delivered li1.trace = delivered exampleInformer.trace ∧
      drainedCalls li1.trace = drainedCalls exampleInformer.trace ∧
      li1.draining = exampleInformer.draining ∧ isDraining li1 = false ∧
      li1.pendingDrains = 0 ∧ li1.store = exampleInformer.store ∧
      li1.lllw = exampleInformer.lllw :=
  ⟨⟨rfl, rfl, rfl, rfl, rfl, rfl⟩,
    C16_stop_emits_nothing exampleInformer ⟨rfl, rfl, rfl, rfl, rfl, rfl⟩⟩

/-- The drain loop on a snapshot of domain objects does what the specification
words: one `sendEvent` of a Deleted event per object. -/
theorem drainResources_spec (C : List Obj) (li : listerInformer Obj) :
    drainResources li (C.map Value.object) = specSyntheticDeletes li C := by
  induction C generalizing li with
  | nil => rfl
  | cons x rest ih =>
    show drainResources (OnDelete li (Value.object x)) (rest.map Value.object) = _
    rw [ih]
    rfl

/-- The drain loop on a snapshot of domain objects is the sequence of the live
`OnDelete` notifications for these objects. -/
theorem drainResources_OnDelete (C : List Obj) (li : listerInformer Obj) :
    drainResources li (C.map Value.object)
      = C.foldl (fun li x => OnDelete li (Value.object x)) li := by
  simp [drainResources, List.foldl_map]

/-- C17 (synthetic deletes are indistinguishable from organic ones): the drain
loop handles a cached object `X` by the very call `OnDelete(X)` of a live
Removed notification, which is one `sendEvent` of `Event{Deleted, X}`; on a
snapshot `C` of objects the loop is the spec-worded sequence of deliveries and
the sequence of live `OnDelete` calls alike; `sendEvent` hands the sink
`listerHasStopped` and the event, once; and in every state reached from a new
adapter every sink call of the trace was handed `listerHasStopped`. -/
theorem C17_synthetic_deletes (li : listerInformer Obj) (X : Obj) (rest : List (Value Obj))
    (C : List Obj) (event : Event Obj) (ns : String) (calls : List (Call Obj)) :
    drainResources li (Value.object X :: rest)
      = drainResources (OnDelete li (Value.object X)) rest ∧
    drainResources li [Value.object X] = OnDelete li (Value.object X) ∧
    OnDelete li (Value.object X)
      = sendEvent li { Type_ := EventType.Deleted, Object := X } ∧
    drainResources li (C.map Value.object) = specSyntheticDeletes li C ∧
    drainResources li (C.map Value.object)
      = C.foldl (fun li x => OnDelete li (Value.object x)) li ∧
    sendEvent li event
      = { li with trace := li.trace ++ [Effect.events Chan.listerHasStopped event] } ∧
    (∀ li1, run (newListerInformer ns) calls = some li1 →
      sinkGetsStopChannel li1.trace = true) :=
  ⟨rfl, rfl, rfl, drainResources_spec C li, drainResources_OnDelete C li, rfl,
    fun li1 h => (reachable_invariants ns calls li1 h).2.2.stop_channel⟩

/-- C17, on the adapter of `test_namespace`: a live addition, then the drain
of its two pods. -/
theorem C17_synthetic_deletes_witness :
    drainResources exampleInformer (Value.object "pod-1" :: [Value.object "pod-2"])
      = drainResources (OnDelete exampleInformer (Value.object "pod-1"))
          [Value.object "pod-2"] ∧
    drainResources exampleInformer [Value.object "pod-1"]
      = OnDelete exampleInformer (Value.object "pod-1") ∧
    OnDelete exampleInformer (Value.object "pod-1")
      = sendEvent exampleInformer { Type_ := EventType.Deleted, Object := "pod-1" } ∧
    drainResources exampleInformer (["pod-1", "pod-2"].map Value.object)
      = specSyntheticDeletes exampleInformer ["pod-1", "pod-2"] ∧
    drainResources exampleInformer (["pod-1", "pod-2"].map Value.object)
      = ["pod-1", "pod-2"].foldl (fun li x => OnDelete li (Value.object x)) exampleInformer ∧
    sendEvent exampleInformer { Type_ := EventType.Added, Object := "pod-3" }
      = { exampleInformer with trace := exampleInformer.trace ++
          [Effect.events Chan.listerHasStopped
            { Type_ := EventType.Added, Object := "pod-3" }] } ∧
    (∀ li1, run (newListerInformer "test_namespace")
        [Call.informerStore [Value.object "pod-1", Value.object "pod-2"],
          Call.OnAdd (Value.object "pod-3"), Call.drain, Call.drainGoroutine] = some li1 →
      sinkGetsStopChannel li1.trace = true) :=
  C17_synthetic_deletes exampleInformer "pod-1" [Value.object "pod-2"] ["pod-1", "pod-2"]
    { Type_ := EventType.Added, Object := "pod-3" } "test_namespace"
    [Call.informerStore [Value.object "pod-1", Value.object "pod-2"],
      Call.OnAdd (Value.object "pod-3"), Call.drain, Call.drainGoroutine]

/-! ## After the halt and after the full stop -/

theorem deliveredAfterHalt_open (xs ys : List (Effect Obj))
    (h : closedIn Chan.stoppedInformer xs = false) :
    deliveredAfterHalt (xs ++ ys) = deliveredAfterHalt ys := by
  induction xs with
  | nil => rfl
  | cons e rest ih =>
    cases e with
    | events c ev =>
      simp only [closedIn, List.any_cons, Bool.false_or] at h ih
      simpa [deliveredAfterHalt] using ih h
    | drained n =>
      simp only [closedIn, List.any_cons, Bool.false_or] at h ih
      simpa [deliveredAfterHalt] using ih h
    | close ch =>
      cases ch with
      | stoppedInformer => simp [closedIn] at h
      | listerHasStopped =>
        simp only [closedIn, List.any_cons] at h ih
        simp only [show decide (Chan.listerHasStopped = Chan.stoppedInformer) = false from rfl,
          Bool.false_or] at h
        simpa [deliveredAfterHalt] using ih h

theorem deliveredAfterHalt_closed (xs ys : List (Effect Obj))
    (h : closedIn Chan.stoppedInformer xs = true) :
    deliveredAfterHalt (xs ++ ys) = deliveredAfterHalt xs ++ delivered ys := by
  induction xs with
  | nil => simp [closedIn] at h
  | cons e rest ih =>
    cases e with
    | events c ev =>
      simp only [closedIn, List.any_cons, Bool.false_or] at h ih
      simpa [deliveredAfterHalt] using ih h
    | drained n =>
      simp only [closedIn, List.any_cons, Bool.false_or] at h ih
      simpa [deliveredAfterHalt] using ih h
    | close ch =>
      cases ch with
      | stoppedInformer => simp [deliveredAfterHalt, delivered_append]
      | listerHasStopped =>
        simp only [closedIn, List.any_cons] at h ih
        simp only [show decide (Chan.listerHasStopped = Chan.stoppedInformer) = false from rfl,
          Bool.false_or] at h
        simpa [deliveredAfterHalt] using ih h

theorem deliveredAfterHalt_of_open (xs : List (Effect Obj))
    (h : closedIn Chan.stoppedInformer xs = false) : deliveredAfterHalt xs = [] := by
  have := deliveredAfterHalt_open xs [] h
  simpa [deliveredAfterHalt] using this

/-- When the informer makes no call once `stoppedInformer` is closed, a call
that returns keeps this: what the sink got after the halt is the synthetic
Deleted events of the store if the drain goroutine has run, and nothing
otherwise. -/
theorem exec_deliveredAfterHalt (li li1 : listerInformer Obj) (c : Call Obj) (hinv : Inv li)
    (hd : DrainInv li)
    (hh : deliveredAfterHalt li.trace
      = if li.draining = true ∧ li.pendingDrains = 0
        then li.store.filterMap (newWatchEvent EventType.Deleted) else [])
    (hc : c.fromInformer = true → li.stoppedInformer = false)
    (h : exec li c = some li1) :
    deliveredAfterHalt li1.trace
      = if li1.draining = true ∧ li1.pendingDrains = 0
        then li1.store.filterMap (newWatchEvent EventType.Deleted) else [] := by
  obtain ⟨h1, h2, h3, h4, h5⟩ := hinv
  obtain ⟨d1, d2, d3, d4⟩ := hd
  have hdf : li.stoppedInformer = false → li.draining = false := by
    intro hs
    cases hb : li.draining with
    | false => rfl
    | true => simp [h3 hb] at hs
  cases c with
  | OnAdd obj =>
    have hs := hc rfl
    simp only [exec, Option.some.injEq] at h
    subst h
    rw [OnAdd_eq]
    show deliveredAfterHalt (li.trace ++ _) = _
    rw [deliveredAfterHalt_open _ _ (h5.trans hs),
      deliveredAfterHalt_of_open _ (closedIn_map_events _ _ _)]
    simp [hdf hs]
  | OnUpdate oldObj newObj =>
    have hs := hc rfl
    simp only [exec, Option.some.injEq] at h
    subst h
    rw [OnUpdate_eq]
    show deliveredAfterHalt (li.trace ++ _) = _
    rw [deliveredAfterHalt_open _ _ (h5.trans hs),
      deliveredAfterHalt_of_open _ (closedIn_map_events _ _ _)]
    simp [hdf hs]
  | OnDelete obj =>
    have hs := hc rfl
    simp only [exec, Option.some.injEq] at h
    subst h
    rw [OnDelete_eq]
    show deliveredAfterHalt (li.trace ++ _) = _
    rw [deliveredAfterHalt_open _ _ (h5.trans hs),
      deliveredAfterHalt_of_open _ (closedIn_map_events _ _ _)]
    simp [hdf hs]
  | informerStore store =>
    have hs := hc rfl
    simp only [exec, Option.some.injEq] at h
    subst h
    show deliveredAfterHalt li.trace = _
    rw [deliveredAfterHalt_of_open _ (h5.trans hs)]
    simp [hdf hs]
  | informerHasSynced =>
    simp only [exec, Option.some.injEq] at h
    subst h
    exact hh
  | drain =>
    simp only [exec, drain, shouldDrain, stopInformer] at h
    by_cases hdr : li.draining = true
    · simp [hdr] at h
      subst h
      exact hh
    · by_cases hs : li.stoppedInformer = true
      · simp [hdr, hs] at h
      · simp [hdr, hs] at h
        subst h
        show deliveredAfterHalt (li.trace ++ _) = _
        rw [deliveredAfterHalt_open _ _ (h5.trans (by simpa using hs))]
        simp [deliveredAfterHalt, delivered]
  | stop =>
    simp only [exec, stop, stopListerInformer, stopInformer] at h
    by_cases ho : li.stopInformerOnce = true
    · simp [ho] at h
      subst h
      exact hh
    · by_cases hl : li.stopListerOnce = true
      · by_cases hs : li.stoppedInformer = true
        · simp [ho, hl, hs] at h
        · simp [ho, hl, hs] at h
          subst h
          have hsf : li.stoppedInformer = false := by simpa using hs
          show deliveredAfterHalt (li.trace ++ _) = _
          rw [deliveredAfterHalt_open _ _ (h5.trans hsf)]
          simp [deliveredAfterHalt, delivered, hdf hsf]
      · by_cases hcl : li.listerHasStopped = true
        · simp [ho, hl, hcl] at h
        · by_cases hs : li.stoppedInformer = true
          · simp [ho, hl, hcl, hs] at h
          · simp [ho, hl, hcl, hs] at h
            subst h
            have hsf : li.stoppedInformer = false := by simpa using hs
            show deliveredAfterHalt (li.trace ++ _) = _
            rw [deliveredAfterHalt_open _ _ (h5.trans hsf)]
            simp [deliveredAfterHalt, delivered, hdf hsf]
  | drainGoroutine =>
    simp only [exec] at h
    by_cases hp : li.pendingDrains = 0
    · simp [hp] at h
      subst h
      exact hh
    · have hopen := d2 hp
      have honce : li.stopListerOnce = false := by rw [d1]; exact hopen
      rw [if_neg hp, drainGoroutine_open li honce hopen] at h
      simp only [Option.some.injEq] at h
      subst h
      have hp1 : li.pendingDrains - 1 = 0 := by omega
      have hcl : closedIn Chan.stoppedInformer li.trace = true := h5.trans (h2 hp)
      have hh0 : deliveredAfterHalt li.trace = [] := by
        rw [hh]
        simp [hp]
      show deliveredAfterHalt (li.trace ++ _ ++ _) = _
      rw [List.append_assoc, deliveredAfterHalt_closed _ _ hcl, hh0]
      simp [delivered_append, delivered_map_events, delivered, d3 hp, hp1]

/-- What `exec_deliveredAfterHalt` says, along a sequence of calls in which
the informer makes no call once `stoppedInformer` is closed. -/
theorem run_deliveredAfterHalt (calls : List (Call Obj)) (li li1 : listerInformer Obj)
    (hinv : Inv li) (hd : DrainInv li)
    (hh : deliveredAfterHalt li.trace
      = if li.draining = true ∧ li.pendingDrains = 0
        then li.store.filterMap (newWatchEvent EventType.Deleted) else [])
    (hhalt : haltRespected li calls = true) (h : run li calls = some li1) :
    deliveredAfterHalt li1.trace
      = if li1.draining = true ∧ li1.pendingDrains = 0
        then li1.store.filterMap (newWatchEvent EventType.Deleted) else [] := by
  induction calls generalizing li with
  | nil =>
    simp only [run, Option.some.injEq] at h
    exact h ▸ hh
  | cons c cs ih =>
    simp only [run] at h
    cases hx : exec li c with
    | none => simp [hx] at h
    | some li2 =>
      simp only [hx, Option.some_bind] at h
      simp only [haltRespected, hx, Bool.and_eq_true, Bool.or_eq_true,
        Bool.not_eq_true'] at hhalt
      have hc : c.fromInformer = true → li.stoppedInformer = false := by
        intro hf
        rcases hhalt.1 with h0 | h0
        · simp [hf] at h0
        · exact h0
      exact ih li2 (exec_Inv li li2 c hinv hx) (exec_DrainInv li li2 c hinv hd hx)
        (exec_deliveredAfterHalt li li2 c hinv hd hh hc hx) hhalt.2 h

/-! ## The properties of the specification: after the halt, after the stop -/

/-- C18 as stated fails: the callbacks do not look at `listerHasStopped`.
After `stop()` on a new adapter `isStopped()` is true and `OnAdd` of a pod
still calls the sink; so does `OnUpdate` after a completed drain. -/
theorem C18_notification_after_stop_reaches_sink :
    (∃ li1 : listerInformer String,
      stop (newListerInformer "test_namespace") = some li1 ∧
      isStopped li1 = true ∧ delivered li1.trace = [] ∧
      delivered (OnAdd li1 (Value.object "pod-1")).trace
        = [{ Type_ := EventType.Added, Object := "pod-1" }]) ∧
    (run (newListerInformer "test_namespace")
        [Call.informerStore [Value.object "pod-1", Value.object "pod-2"],
          Call.drain, Call.drainGoroutine] = some exampleDrained ∧
      isStopped exampleDrained = true ∧
      delivered (OnUpdate exampleDrained (Value.object "pod-1") (Value.object "pod-1")).trace
        = delivered exampleDrained.trace
          ++ [{ Type_ := EventType.Modified, Object := "pod-1" }]) :=
  ⟨⟨_, rfl, rfl, rfl, rfl⟩, rfl, rfl, rfl⟩

/-- C18, amended: in every state reached from a new adapter in which
`isStopped()` is true, the adapter itself delivers nothing more: a `drain()`
or `stop()` that returns leaves the state as it was, and no drain goroutine is
left to run.  A notification that still arrives is not filtered: `OnAdd`,
`OnUpdate` and `OnDelete` hand the sink the event they translate, together
with the closed `listerHasStopped`, as in any other state. -/
theorem C18_after_full_stop (ns : String) (calls : List (Call Obj)) (li : listerInformer Obj)
    (hreach : run (newListerInformer ns) calls = some li) (hstopped : isStopped li = true) :
    (∀ li1, drain li = some li1 → li1 = li) ∧
    (∀ li1, stop li = some li1 → li1 = li) ∧
    exec li Call.drainGoroutine = some li ∧
    (∀ obj, delivered (OnAdd li obj).trace
      = delivered li.trace ++ (newWatchEvent EventType.Added obj).toList) ∧
    (∀ oldObj newObj, delivered (OnUpdate li oldObj newObj).trace
      = delivered li.trace ++ (newWatchEvent EventType.Modified newObj).toList) ∧
    (∀ obj, delivered (OnDelete li obj).trace
      = delivered li.trace ++ (newWatchEvent EventType.Deleted obj).toList) ∧
    (∀ obj, sinkGetsStopChannel (OnAdd li obj).trace = true ∧
      isStopped (OnAdd li obj) = true) := by
  obtain ⟨hinv, hd, ht⟩ := reachable_invariants ns calls li hreach
  have hl : li.listerHasStopped = true := hstopped
  have hs := hinv.lister_informer hl
  refine ⟨?_, ?_, ?_, ?_, ?_, ?_, ?_⟩
  · intro li1 h
    by_cases hdr : li.draining = true
    · rw [drain_draining li hdr] at h
      exact (Option.some.inj h).symm
    · simp [drain, shouldDrain, stopInformer, hdr, hs] at h
  · intro li1 h
    by_cases ho : li.stopInformerOnce = true
    · simp [stop, ho] at h
      exact h.symm
    · simp [stop, ho, stopListerInformer, stopInformer, hd.once_lister, hl, hs] at h
  · have hp : li.pendingDrains = 0 := by
      by_contra hne
      simp [hd.pending_open hne] at hl
    simp [exec, hp]
  · intro obj
    rw [OnAdd_eq]
    simp [delivered_append, delivered_map_events]
  · intro oldObj newObj
    rw [OnUpdate_eq]
    simp [delivered_append, delivered_map_events]
  · intro obj
    rw [OnDelete_eq]
    simp [delivered_append, delivered_map_events]
  · intro obj
    rw [OnAdd_eq]
    exact ⟨by simp [sinkGetsStopChannel_append, sinkGetsStopChannel_map_events,
      ht.stop_channel], hl⟩

/-- C18 amended, on the drained adapter of `test_namespace`. -/
theorem C18_after_full_stop_witness :
    run (newListerInformer "test_namespace")
      [Call.informerStore [Value.object "pod-1", Value.object "pod-2"],
        Call.drain, Call.drainGoroutine] = some exampleDrained ∧
    isStopped exampleDrained = true ∧
    (∀ li1, drain exampleDrained = some li1 → li1 = exampleDrained) ∧
    (∀ li1, stop exampleDrained = some li1 → li1 = exampleDrained) ∧
    exec exampleDrained Call.drainGoroutine = some exampleDrained ∧
    (∀ obj, delivered (OnAdd exampleDrained obj).trace
      = delivered exampleDrained.trace ++ (newWatchEvent EventType.Added obj).toList) ∧
    (∀ oldObj newObj, delivered (OnUpdate exampleDrained oldObj newObj).trace
      = delivered exampleDrained.trace ++ (newWatchEvent EventType.Modified newObj).toList) ∧
    (∀ obj, delivered (OnDelete exampleDrained obj).trace
      = delivered exampleDrained.trace ++ (newWatchEvent EventType.Deleted obj).toList) ∧
    (∀ obj, sinkGetsStopChannel (OnAdd exampleDrained obj).trace = true ∧
      isStopped (OnAdd exampleDrained obj) = true) :=
  ⟨rfl, rfl, C18_after_full_stop "test_namespace"
    [Call.informerStore [Value.object "pod-1", Value.object "pod-2"],
      Call.drain, Call.drainGoroutine] exampleDrained rfl rfl⟩

/-- C19 as stated fails: the callbacks do not look at `draining` or at
`stoppedInformer`.  After `drain()` on the adapter caching `pod-1` and `pod-2`
(`draining` set, `stoppedInformer` closed) and the first iteration of the
goroutine loop, an `OnAdd` of `pod-3` is translated and reaches the sink after
the synthetic delete of `pod-1`; likewise after the whole drain. -/
theorem C19_live_event_after_synthetic_delete :
    (∃ li1 : listerInformer String, drain exampleInformer = some li1 ∧
      isDraining li1 = true ∧ li1.stoppedInformer = true ∧
      delivered (OnAdd (drainResources li1 [Value.object "pod-1"]) (Value.object "pod-3")).trace
        = [{ Type_ := EventType.Deleted, Object := "pod-1" },
            { Type_ := EventType.Added, Object := "pod-3" }]) ∧
    (run exampleInformer [Call.drain, Call.drainGoroutine, Call.OnAdd (Value.object "pod-3")]).map
        (fun li => delivered li.trace)
      = some [{ Type_ := EventType.Deleted, Object := "pod-1" },
          { Type_ := EventType.Deleted, Object := "pod-2" },
          { Type_ := EventType.Added, Object := "pod-3" }] :=
  ⟨⟨_, rfl, rfl, rfl, rfl⟩, rfl⟩

/-- C19, amended: `drain()` closes `stoppedInformer`, the halt signal of the
informer, before its goroutine delivers anything (a goroutine is started only
with the close in the trace), and the adapter relies on the informer for the
rest: along every sequence of calls from a new adapter in
which the informer makes no call once `stoppedInformer` is closed, everything
the sink got after the halt is the synthetic Deleted events of the store (once
the drain goroutine has run; nothing before), so no live event follows a
synthetic delete.  The callbacks themselves have no guard: a notification is
translated and forwarded in every state. -/
theorem C19_no_live_event_after_halt (ns : String) (calls : List (Call Obj))
    (li : listerInformer Obj) (hreach : run (newListerInformer ns) calls = some li)
    (hhalt : haltRespected (newListerInformer ns) calls = true) :
    (li.pendingDrains ≠ 0 → closedIn Chan.stoppedInformer li.trace = true) ∧
    deliveredAfterHalt li.trace
      = (if li.draining = true ∧ li.pendingDrains = 0
        then li.store.filterMap (newWatchEvent EventType.Deleted) else []) ∧
    (∀ obj, delivered (OnAdd li obj).trace
      = delivered li.trace ++ (newWatchEvent EventType.Added obj).toList) := by
  have hinv := (reachable_invariants ns calls li hreach).1
  refine ⟨fun hp => hinv.trace_informer.trans (hinv.pending_informer hp),
    run_deliveredAfterHalt calls _ li (Inv_newListerInformer ns)
      (DrainInv_newListerInformer ns) rfl hhalt hreach, ?_⟩
  intro obj
  rw [OnAdd_eq]
  simp [delivered_append, delivered_map_events]

/-- C19 amended, on a live addition followed by the drain of two pods. -/
theorem C19_no_live_event_after_halt_witness :
    run (newListerInformer "test_namespace")
      [Call.informerStore [Value.object "pod-1", Value.object "pod-2"],
        Call.drain, Call.drainGoroutine] = some exampleDrained ∧
    haltRespected (newListerInformer "test_namespace")
      [Call.informerStore [Value.object "pod-1", Value.object "pod-2"],
        Call.drain, Call.drainGoroutine] = true ∧
    (exampleDrained.pendingDrains ≠ 0 →
      closedIn Chan.stoppedInformer exampleDrained.trace = true) ∧
    deliveredAfterHalt exampleDrained.trace
      = (if exampleDrained.draining = true ∧ exampleDrained.pendingDrains = 0
        then exampleDrained.store.filterMap (newWatchEvent EventType.Deleted) else []) ∧
    (∀ obj, delivered (OnAdd exampleDrained obj).trace
      = delivered exampleDrained.trace ++ (newWatchEvent EventType.Added obj).toList) :=
  ⟨rfl, rfl, C19_no_live_event_after_halt "test_namespace"
    [Call.informerStore [Value.object "pod-1", Value.object "pod-2"],
      Call.drain, Call.drainGoroutine] exampleDrained rfl rfl⟩

/-- C20 (flag flip and halt are indivisible): in every state that calls reach
from a new adapter, `isDraining()` true implies that `stoppedInformer` is
closed; the locked section of `drain()`, when it returns, has both the flag
set and the channel closed; and a drain goroutine exists, to take its snapshot
of the store, only with `stoppedInformer` closed. -/
theorem C20_flag_and_halt (ns : String) (calls : List (Call Obj)) (li : listerInformer Obj)
    (hreach : run (newListerInformer ns) calls = some li) :
    (isDraining li = true → li.stoppedInformer = true) ∧
    (∀ li1 b, shouldDrain li = some (li1, b) →
      isDraining li1 = true ∧ li1.stoppedInformer = true) ∧
    (li.pendingDrains ≠ 0 →
      li.stoppedInformer = true ∧ closedIn Chan.stoppedInformer li.trace = true) := by
  obtain ⟨hinv, _, _⟩ := reachable_invariants ns calls li hreach
  refine ⟨hinv.draining_informer, ?_, fun hp => ⟨hinv.pending_informer hp,
    hinv.trace_informer.trans (hinv.pending_informer hp)⟩⟩
  intro li1 b h
  by_cases hdr : li.draining = true
  · simp [shouldDrain, hdr] at h
    obtain ⟨rfl, _⟩ := h
    exact ⟨hdr, hinv.draining_informer hdr⟩
  · by_cases hs : li.stoppedInformer = true
    · simp [shouldDrain, stopInformer, hdr, hs] at h
    · simp [shouldDrain, stopInformer, hdr, hs] at h
      obtain ⟨rfl, _⟩ := h
      exact ⟨rfl, rfl⟩

/-- C20, on the adapter of `test_namespace` after `drain()`, its goroutine not
yet run. -/
theorem C20_flag_and_halt_witness :
    run (newListerInformer "test_namespace")
      [Call.informerStore [Value.object "pod-1", Value.object "pod-2"], Call.drain]
      = some exampleDraining ∧
    (isDraining exampleDraining = true → exampleDraining.stoppedInformer = true) ∧
    (∀ li1 b, shouldDrain exampleDraining = some (li1, b) →
      isDraining li1 = true ∧ li1.stoppedInformer = true) ∧
    (exampleDraining.pendingDrains ≠ 0 →
      exampleDraining.stoppedInformer = true ∧
      closedIn Chan.stoppedInformer exampleDraining.trace = true) :=
  ⟨rfl, C20_flag_and_halt "test_namespace"
    [Call.informerStore [Value.object "pod-1", Value.object "pod-2"], Call.drain]
    exampleDraining rfl⟩

/-! ## The lifecycle, the order of events, malformed payloads -/

theorem newWatchEvent_recoveredObject (t : EventType) (v : Value Obj) :
    newWatchEvent t v = (recoveredObject v).map fun x => { Type_ := t, Object := x } := by
  cases v with
  | object x => rfl
  | tombstone key w => cases w <;> rfl
  | other tag => rfl

/-- Each notification hands the sink its translation, if it has one, and
nothing else. -/
theorem notify_delivered (li : listerInformer Obj) (n : Notification Obj) :
    delivered (notify li n).trace = delivered li.trace ++ (translation n).toList := by
  cases n with
  | Added obj =>
    show delivered (OnAdd li obj).trace = _
    rw [OnAdd_eq]
    simp [delivered_append, delivered_map_events, translation, newWatchEvent_recoveredObject]
  | Updated oldObj newObj =>
    show delivered (OnUpdate li oldObj newObj).trace = _
    rw [OnUpdate_eq]
    simp [delivered_append, delivered_map_events, translation, newWatchEvent_recoveredObject]
  | Removed obj =>
    show delivered (OnDelete li obj).trace = _
    rw [OnDelete_eq]
    simp [delivered_append, delivered_map_events, translation, newWatchEvent_recoveredObject]

/-- No call reopens `listerHasStopped`. -/
theorem exec_isStopped (li li1 : listerInformer Obj) (c : Call Obj)
    (h : exec li c = some li1) (hs : isStopped li = true) : isStopped li1 = true := by
  have hl : li.listerHasStopped = true := hs
  cases c with
  | OnAdd obj =>
    simp only [exec, Option.some.injEq] at h
    subst h
    rw [OnAdd_eq]
    exact hl
  | OnUpdate oldObj newObj =>
    simp only [exec, Option.some.injEq] at h
    subst h
    rw [OnUpdate_eq]
    exact hl
  | OnDelete obj =>
    simp only [exec, Option.some.injEq] at h
    subst h
    rw [OnDelete_eq]
    exact hl
  | informerStore store =>
    simp only [exec, Option.some.injEq] at h
    subst h
    exact hl
  | informerHasSynced =>
    simp only [exec, Option.some.injEq] at h
    subst h
    exact hl
  | drain =>
    simp only [exec, drain, shouldDrain, stopInformer] at h
    by_cases hd : li.draining = true
    · simp [hd] at h
      subst h
      exact hl
    · by_cases hsi : li.stoppedInformer = true
      · simp [hd, hsi] at h
      · simp [hd, hsi] at h
        subst h
        exact hl
  | stop =>
    simp only [exec, stop, stopListerInformer, stopInformer] at h
    by_cases ho : li.stopInformerOnce = true
    · simp [ho] at h
      subst h
      exact hl
    · by_cases hlo : li.stopListerOnce = true
      · by_cases hsi : li.stoppedInformer = true
        · simp [ho, hlo, hsi] at h
        · simp [ho, hlo, hsi] at h
          subst h
          exact hl
      · simp [ho, hlo, hl] at h
  | drainGoroutine =>
    simp only [exec] at h
    by_cases hp : li.pendingDrains = 0
    · simp [hp] at h
      subst h
      exact hl
    · simp only [hp, if_false, drainGoroutine, drainDeferred, stopListerInformer,
        drainResources_eq] at h
      by_cases hlo : li.stopListerOnce = true
      · simp [hlo] at h
        subst h
        exact hl
      · simp [hlo, hl] at h

theorem run_isStopped (calls : List (Call Obj)) (li li1 : listerInformer Obj)
    (h : run li calls = some li1) (hs : isStopped li = true) : isStopped li1 = true := by
  induction calls generalizing li with
  | nil =>
    simp only [run, Option.some.injEq] at h
    exact h ▸ hs
  | cons c cs ih =>
    simp only [run] at h
    cases hx : exec li c with
    | none => simp [hx] at h
    | some li2 =>
      simp only [hx, Option.some_bind] at h
      exact ih li2 h (exec_isStopped li li2 c hx hs)

/-- No call clears the drain flag. -/
theorem exec_isDraining (li li1 : listerInformer Obj) (c : Call Obj)
    (h : exec li c = some li1) (hd : isDraining li = true) : isDraining li1 = true := by
  have hdr : li.draining = true := hd
  cases c with
  | OnAdd obj =>
    simp only [exec, Option.some.injEq] at h
    subst h
    rw [OnAdd_eq]
    exact hdr
  | OnUpdate oldObj newObj =>
    simp only [exec, Option.some.injEq] at h
    subst h
    rw [OnUpdate_eq]
    exact hdr
  | OnDelete obj =>
    simp only [exec, Option.some.injEq] at h
    subst h
    rw [OnDelete_eq]
    exact hdr
  | informerStore store =>
    simp only [exec, Option.some.injEq] at h
    subst h
    exact hdr
  | informerHasSynced =>
    simp only [exec, Option.some.injEq] at h
    subst h
    exact hdr
  | drain =>
    simp only [exec] at h
    rw [drain_draining li hdr] at h
    exact (Option.some.inj h) ▸ hd
  | stop =>
    simp only [exec, stop, stopListerInformer, stopInformer] at h
    by_cases ho : li.stopInformerOnce = true
    · simp [ho] at h
      subst h
      exact hdr
    · by_cases hlo : li.stopListerOnce = true
      · by_cases hsi : li.stoppedInformer = true
        · simp [ho, hlo, hsi] at h
        · simp [ho, hlo, hsi] at h
          subst h
          exact hdr
      · by_cases hc : li.listerHasStopped = true
        · simp [ho, hlo, hc] at h
        · by_cases hsi : li.stoppedInformer = true
          · simp [ho, hlo, hc, hsi] at h
          · simp [ho, hlo, hc, hsi] at h
            subst h
            exact hdr
  | drainGoroutine =>
    simp only [exec] at h
    by_cases hp : li.pendingDrains = 0
    · simp [hp] at h
      subst h
      exact hdr
    · simp only [hp, if_false, drainGoroutine, drainDeferred, stopListerInformer,
        drainResources_eq] at h
      by_cases hlo : li.stopListerOnce = true
      · simp [hlo] at h
        subst h
        exact hdr
      · by_cases hc : li.listerHasStopped = true
        · simp [hlo, hc] at h
        · simp [hlo, hc] at h
          subst h
          exact hdr

theorem run_isDraining (calls : List (Call Obj)) (li li1 : listerInformer Obj)
    (h : run li calls = some li1) (hd : isDraining li = true) : isDraining li1 = true := by
  induction calls generalizing li with
  | nil =>
    simp only [run, Option.some.injEq] at h
    exact h ▸ hd
  | cons c cs ih =>
    simp only [run] at h
    cases hx : exec li c with
    | none => simp [hx] at h
    | some li2 =>
      simp only [hx, Option.some_bind] at h
      exact ih li2 h (exec_isDraining li li2 c hx hd)

/-- A run that ends with the drain flag unset never passed through Draining. -/
theorem passesThroughDraining_false (calls : List (Call Obj)) (li li1 : listerInformer Obj)
    (h : run li calls = some li1) (hd : isDraining li1 = false) :
    passesThroughDraining li calls = false := by
  induction calls generalizing li with
  | nil =>
    simp only [run, Option.some.injEq] at h
    subst h
    exact hd
  | cons c cs ih =>
    have h0 : isDraining li = false := by
      cases hb : isDraining li with
      | false => rfl
      | true => rw [run_isDraining (c :: cs) li li1 h hb] at hd; exact absurd hd (by simp)
    simp only [run] at h
    cases hx : exec li c with
    | none => simp [hx] at h
    | some li2 =>
      simp only [hx, Option.some_bind] at h
      simp [passesThroughDraining, h0, hx, ih li2 h]

/-- Every call that returns keeps this: `listerHasStopped` is closed only if a
drain has run to its end or `stop()` has run. -/
theorem exec_stoppedVia (li li1 : listerInformer Obj) (c : Call Obj) (hinv : Inv li)
    (hdi : DrainInv li)
    (hv : li.listerHasStopped = true →
      (li.draining = true ∧ li.pendingDrains = 0) ∨ li.stopInformerOnce = true)
    (h : exec li c = some li1) :
    li1.listerHasStopped = true →
      (li1.draining = true ∧ li1.pendingDrains = 0) ∨ li1.stopInformerOnce = true := by
  obtain ⟨h1, h2, h3, h4, h5⟩ := hinv
  obtain ⟨d1, d2, d3, d4⟩ := hdi
  cases c with
  | OnAdd obj =>
    simp only [exec, Option.some.injEq] at h
    subst h
    rw [OnAdd_eq]
    exact hv
  | OnUpdate oldObj newObj =>
    simp only [exec, Option.some.injEq] at h
    subst h
    rw [OnUpdate_eq]
    exact hv
  | OnDelete obj =>
    simp only [exec, Option.some.injEq] at h
    subst h
    rw [OnDelete_eq]
    exact hv
  | informerStore store =>
    simp only [exec, Option.some.injEq] at h
    subst h
    exact hv
  | informerHasSynced =>
    simp only [exec, Option.some.injEq] at h
    subst h
    exact hv
  | drain =>
    simp only [exec, drain, shouldDrain, stopInformer] at h
    by_cases hd : li.draining = true
    · simp [hd] at h
      subst h
      exact hv
    · by_cases hsi : li.stoppedInformer = true
      · simp [hd, hsi] at h
      · simp [hd, hsi] at h
        subst h
        intro hl
        exact absurd (h1 hl) hsi
  | stop =>
    simp only [exec, stop, stopListerInformer, stopInformer] at h
    by_cases ho : li.stopInformerOnce = true
    · simp [ho] at h
      subst h
      exact hv
    · by_cases hlo : li.stopListerOnce = true
      · by_cases hsi : li.stoppedInformer = true
        · simp [ho, hlo, hsi] at h
        · simp [ho, hlo, hsi] at h
          subst h
          intro _
          exact Or.inr rfl
      · by_cases hc : li.listerHasStopped = true
        · simp [ho, hlo, hc] at h
        · by_cases hsi : li.stoppedInformer = true
          · simp [ho, hlo, hc, hsi] at h
          · simp [ho, hlo, hc, hsi] at h
            subst h
            intro _
            exact Or.inr rfl
  | drainGoroutine =>
    simp only [exec] at h
    by_cases hp : li.pendingDrains = 0
    · simp [hp] at h
      subst h
      exact hv
    · have hopen := d2 hp
      have honce : li.stopListerOnce = false := by rw [d1]; exact hopen
      rw [if_neg hp, drainGoroutine_open li honce hopen] at h
      simp only [Option.some.injEq] at h
      subst h
      intro _
      exact Or.inl ⟨d3 hp, show li.pendingDrains - 1 = 0 by omega⟩

theorem run_stoppedVia (calls : List (Call Obj)) (li li1 : listerInformer Obj) (hinv : Inv li)
    (hdi : DrainInv li)
    (hv : li.listerHasStopped = true →
      (li.draining = true ∧ li.pendingDrains = 0) ∨ li.stopInformerOnce = true)
    (h : run li calls = some li1) :
    li1.listerHasStopped = true →
      (li1.draining = true ∧ li1.pendingDrains = 0) ∨ li1.stopInformerOnce = true := by
  induction calls generalizing li with
  | nil =>
    simp only [run, Option.some.injEq] at h
    exact h ▸ hv
  | cons c cs ih =>
    simp only [run] at h
    cases hx : exec li c with
    | none => simp [hx] at h
    | some li2 =>
      simp only [hx, Option.some_bind] at h
      exact ih li2 (exec_Inv li li2 c hinv hx) (exec_DrainInv li li2 c hinv hdi hx)
        (exec_stoppedVia li li2 c hinv hdi hv hx) h

/-- A run that ends with the drain flag set passed through Draining. -/
theorem passesThroughDraining_true (calls : List (Call Obj)) (li li1 : listerInformer Obj)
    (h : run li calls = some li1) (hd : isDraining li1 = true) :
    passesThroughDraining li calls = true := by
  induction calls generalizing li with
  | nil =>
    simp only [run, Option.some.injEq] at h
    subst h
    exact hd
  | cons c cs ih =>
    simp only [run] at h
    cases hx : exec li c with
    | none => simp [hx] at h
    | some li2 =>
      simp only [hx, Option.some_bind] at h
      simp [passesThroughDraining, hx, ih li2 h]

/-- The events of a sequence of notifications: their translations, in order. -/
theorem foldl_notify_delivered (ns : List (Notification Obj)) (li : listerInformer Obj) :
    delivered (ns.foldl notify li).trace = delivered li.trace ++ ns.filterMap translation := by
  induction ns generalizing li with
  | nil => simp
  | cons n rest ih =>
    rw [List.foldl_cons, ih, notify_delivered, List.append_assoc]
    cases h : translation n <;> simp [List.filterMap_cons, h]

/-! ## The properties of the specification: lifecycle, order, malformed payloads -/

/-- C21 as stated fails: `stop()` on a new adapter makes `isStopped()` true
while `isDraining()` is false, and the adapter was in Draining at no point of
that run. -/
theorem C21_stop_skips_draining :
    ∃ li1 : listerInformer String,
      run (newListerInformer "test_namespace") [Call.stop] = some li1 ∧
      isStopped li1 = true ∧ isDraining li1 = false ∧
      passesThroughDraining (newListerInformer "test_namespace" : listerInformer String)
        [Call.stop] = false :=
  ⟨_, rfl, rfl, rfl, rfl⟩

/-- C21, amended: in every state that calls reach from a new adapter and in
which `isStopped()` is true, either the adapter went through Draining
(`isDraining()` is true, its drain goroutine has run, `stop()` has not), or
`stop()` has run and the adapter was never in Draining: `stop()` enters
Stopped directly from Running.  Stopped is terminal: whatever calls follow,
`isStopped()` stays true. -/
theorem C21_stopped_via (ns : String) (calls : List (Call Obj)) (li : listerInformer Obj)
    (hreach : run (newListerInformer ns) calls = some li) (hstopped : isStopped li = true) :
    ((isDraining li = true ∧ li.pendingDrains = 0 ∧ li.stopInformerOnce = false ∧
        passesThroughDraining (newListerInformer ns : listerInformer Obj) calls = true) ∨
      (li.stopInformerOnce = true ∧ isDraining li = false ∧
        passesThroughDraining (newListerInformer ns : listerInformer Obj) calls = false)) ∧
    (∀ calls1 li1, run li calls1 = some li1 → isStopped li1 = true) := by
  obtain ⟨hinv, _, _⟩ := reachable_invariants ns calls li hreach
  have hv := run_stoppedVia calls _ li (Inv_newListerInformer ns)
    (DrainInv_newListerInformer ns) (by simp [newListerInformer]) hreach hstopped
  refine ⟨?_, fun calls1 li1 h => run_isStopped calls1 li li1 h hstopped⟩
  rcases hv with ⟨hd, hp⟩ | ho
  · left
    have hno : li.stopInformerOnce = false := by
      cases hb : li.stopInformerOnce with
      | false => rfl
      | true => simp [(hinv.once_informer hb).2] at hd
    exact ⟨hd, hp, hno, passesThroughDraining_true calls _ li hreach hd⟩
  · right
    have hd : isDraining li = false := (hinv.once_informer ho).2
    exact ⟨ho, hd, passesThroughDraining_false calls _ li hreach hd⟩

/-- C21 amended, on the drained adapter of `test_namespace`. -/
theorem C21_stopped_via_witness :
    run (newListerInformer "test_namespace")
      [Call.informerStore [Value.object "pod-1", Value.object "pod-2"],
        Call.drain, Call.drainGoroutine] = some exampleDrained ∧
    isStopped exampleDrained = true ∧
    ((isDraining exampleDrained = true ∧ exampleDrained.pendingDrains = 0 ∧
        exampleDrained.stopInformerOnce = false ∧
        passesThroughDraining (newListerInformer "test_namespace" : listerInformer String)
          [Call.informerStore [Value.object "pod-1", Value.object "pod-2"],
            Call.drain, Call.drainGoroutine] = true) ∨
      (exampleDrained.stopInformerOnce = true ∧ isDraining exampleDrained = false ∧
        passesThroughDraining (newListerInformer "test_namespace" : listerInformer String)
          [Call.informerStore [Value.object "pod-1", Value.object "pod-2"],
            Call.drain, Call.drainGoroutine] = false)) ∧
    (∀ calls1 li1, run exampleDrained calls1 = some li1 → isStopped li1 = true) :=
  ⟨rfl, rfl, C21_stopped_via "test_namespace"
    [Call.informerStore [Value.object "pod-1", Value.object "pod-2"],
      Call.drain, Call.drainGoroutine] exampleDrained rfl rfl⟩

/-- C22 (per-partition ordering): whatever the state of the adapter, the
events that a sequence of notifications puts into the sink are exactly the
translations of the notifications, in their order, the malformed ones left
out; so for the addition, the update and the removal of a pod, as in the
test. -/
theorem C22_per_partition_ordering (li : listerInformer Obj)
    (ns : List (Notification Obj)) :
    delivered (ns.foldl notify li).trace = delivered li.trace ++ ns.filterMap translation ∧
    delivered ([Notification.Added (Value.object "pod-21"),
        Notification.Updated (Value.object "pod-21") (Value.object "pod-21"),
        Notification.Removed (Value.other 0),
        Notification.Removed (Value.tombstone "test_namespace/pod-21" (Value.object "pod-21"))
        ].foldl notify exampleSynced).trace
      = delivered exampleSynced.trace ++
        [{ Type_ := EventType.Added, Object := "pod-21" },
          { Type_ := EventType.Modified, Object := "pod-21" },
          { Type_ := EventType.Deleted, Object := "pod-21" }] :=
  ⟨foldl_notify_delivered ns li, by rw [foldl_notify_delivered]; rfl⟩

/-- C25 (a malformed Added notification does not count toward sync): for a
payload that is neither a domain object nor a tombstone wrapping one,
`newWatchEvent` fails and `OnAdd` returns the adapter as it was, the add count
included; and in every state that calls reach from a new adapter the add count
equals the number of Added events handed to the sink. -/
theorem C25_malformed_add_not_counted (li : listerInformer Obj) (obj : Value Obj)
    (ns : String) (calls : List (Call Obj))
    (hobj : ∀ x, obj ≠ Value.object x)
    (htomb : ∀ key x, obj ≠ Value.tombstone key (Value.object x)) :
    newWatchEvent EventType.Added obj = none ∧
    OnAdd li obj = li ∧
    (∀ li1, run (newListerInformer ns) calls = some li1 →
      li1.lllw.addCount = addedCount (delivered li1.trace)) := by
  have hnone : newWatchEvent EventType.Added obj = none := by
    cases obj with
    | object x => exact absurd rfl (hobj x)
    | tombstone key v =>
      cases v with
      | object x => exact absurd rfl (htomb key x)
      | tombstone k2 w => rfl
      | other tag => rfl
    | other tag => rfl
  refine ⟨hnone, ?_, fun li1 h => (run_sync calls _ li1 h).2.2 rfl⟩
  simp [OnAdd, hnone]

/-- C25, on a tombstone that wraps no object. -/
theorem C25_malformed_add_not_counted_witness :
    (∀ x, (Value.tombstone "k" (Value.other 0) : Value String) ≠ Value.object x) ∧
    (∀ key x, (Value.tombstone "k" (Value.other 0) : Value String)
      ≠ Value.tombstone key (Value.object x)) ∧
    newWatchEvent EventType.Added (Value.tombstone "k" (Value.other 0) : Value String) = none ∧
    OnAdd exampleInformer (Value.tombstone "k" (Value.other 0)) = exampleInformer ∧
    (∀ li1, run (newListerInformer "test_namespace")
        [Call.OnAdd (Value.other 1), Call.OnAdd (Value.object "pod-1")] = some li1 →
      li1.lllw.addCount = addedCount (delivered li1.trace)) :=
  ⟨(fun _ h => by cases h), (fun _ _ h => by cases h),
    C25_malformed_add_not_counted exampleInformer (Value.tombstone "k" (Value.other 0))
      "test_namespace" [Call.OnAdd (Value.other 1), Call.OnAdd (Value.object "pod-1")]
      (fun _ h => by cases h) (fun _ _ h => by cases h)⟩

/-- C26 (a tombstone that wraps no domain object is malformed): for a wrapped
payload `v` that is not a domain object, another tombstone and `nil` included,
`newWatchEvent` of the tombstone fails for every event kind, and the three
callbacks return the adapter as it was; the tombstone is unwrapped once, not
again. -/
theorem C26_tombstone_unwrapped_once (li : listerInformer Obj) (t : EventType)
    (key : String) (v oldObj : Value Obj) (hv : ∀ x, v ≠ Value.object x) :
    newWatchEvent t (Value.tombstone key v) = none ∧
    OnAdd li (Value.tombstone key v) = li ∧
    OnUpdate li oldObj (Value.tombstone key v) = li ∧
    OnDelete li (Value.tombstone key v) = li := by
  have hnone : ∀ t1, newWatchEvent t1 (Value.tombstone key v) = none := by
    intro t1
    cases v with
    | object x => exact absurd rfl (hv x)
    | tombstone k2 w => rfl
    | other tag => rfl
  exact ⟨hnone t, by simp [OnAdd, hnone], by simp [OnUpdate, hnone], by simp [OnDelete, hnone]⟩

/-- C26, on a tombstone that wraps a tombstone of `pod-1`. -/
theorem C26_tombstone_unwrapped_once_witness :
    (∀ x, (Value.tombstone "k2" (Value.object "pod-1") : Value String) ≠ Value.object x) ∧
    newWatchEvent EventType.Deleted
      (Value.tombstone "k" (Value.tombstone "k2" (Value.object "pod-1")) : Value String)
      = none ∧
    OnAdd exampleInformer (Value.tombstone "k" (Value.tombstone "k2" (Value.object "pod-1")))
      = exampleInformer ∧
    OnUpdate exampleInformer (Value.other 0)
        (Value.tombstone "k" (Value.tombstone "k2" (Value.object "pod-1")))
      = exampleInformer ∧
    OnDelete exampleInformer (Value.tombstone "k" (Value.tombstone "k2" (Value.object "pod-1")))
      = exampleInformer :=
  ⟨(fun _ h => by cases h),
    C26_tombstone_unwrapped_once exampleInformer EventType.Deleted "k"
      (Value.tombstone "k2" (Value.object "pod-1")) (Value.other 0) (fun _ h => by cases h)⟩

end listwatch

namespace ior

/-! ## Lemmas on maps and on the hexadecimal encoding -/

theorem mapIndex_mapAssign_ne (m : StringMap) (k k1 v : String) (h : k1 ≠ k) :
    mapIndex (mapAssign m k1 v) k = mapIndex m k := by
  have hk : (k1 == k) = false := by simpa using h
  simp only [mapIndex, mapAssign, List.find?_cons, hk]
  congr 1
  induction m with
  | nil => rfl
  | cons p rest ih =>
    by_cases hp : p.1 = k
    · have hkk : ¬ k = k1 := fun e => h e.symm
      simp [List.filter_cons, hp, hkk]
    · have hpk : (p.1 == k) = false := by simpa using hp
      by_cases hp1 : (p.1 != k1) = true
      · simp [List.filter_cons, hp1, List.find?_cons, hpk, ih]
      · simp [List.filter_cons, hp1, List.find?_cons, hpk, ih]

theorem hextable_getD_mem (i : Nat) (h : i < 16) : hextable.getD i '0' ∈ hextable := by
  interval_cases i <;> decide

theorem EncodeToString_length (src : List Nat) : (EncodeToString src).length = 2 * src.length := by
  induction src with
  | nil => rfl
  | cons v rest ih =>
    simp only [EncodeToString, String.length, List.flatMap_cons, List.length_append,
      List.length_cons, List.length_nil] at ih ⊢
    omega

theorem EncodeToString_hex (src : List Nat) :
    ∀ ch ∈ (EncodeToString src).toList, ch ∈ hextable := by
  intro ch hch
  have hmem : ch ∈ src.flatMap fun v =>
      [hextable.getD (v / 16 % 16) '0', hextable.getD (v % 16) '0'] := hch
  simp only [List.mem_flatMap, List.mem_cons, List.mem_singleton, List.not_mem_nil,
    or_false] at hmem
  obtain ⟨v, _, hv⟩ := hmem
  rcases hv with rfl | rfl
  · exact hextable_getD_mem _ (Nat.mod_lt _ (by decide))
  · exact hextable_getD_mem _ (Nat.mod_lt _ (by decide))

/-- The annotations that `createRoute` makes carry the original host under
`originalHostAnnotation` when no annotation of the gateway has that key. -/
theorem routeAnnotations_originalHost (metadata : Meta) (originalHost : String)
    (hkey : ∀ v, ( originalHostAnnotation, v) ∉ metadata.Annotations) :
    mapIndex (routeAnnotations metadata originalHost) originalHostAnnotation = originalHost := by
  have hgen : ∀ (l : StringMap) (acc : StringMap),
      (∀ v, ( originalHostAnnotation, v) ∉ l) →
      mapIndex acc originalHostAnnotation = originalHost →
      mapIndex (l.foldl
        (fun annotations kv =>
          if !(HasPrefix kv.1 "kubectl.kubernetes.io") then mapAssign annotations kv.1 kv.2
          else annotations) acc) originalHostAnnotation = originalHost := by
    intro l
    induction l with
    | nil => intro acc _ h; exact h
    | cons kv rest ih =>
      intro acc hl hacc
      rw [List.foldl_cons]
      apply ih
      · intro v hv
        exact hl v (List.mem_cons_of_mem _ hv)
      · have hne : kv.1 ≠ originalHostAnnotation := by
          intro e
          apply hl kv.2
          rw [← e]
          exact List.mem_cons_self _ _
        by_cases hp : (!(HasPrefix kv.1 "kubectl.kubernetes.io")) = true
        · rw [if_pos hp, mapIndex_mapAssign_ne _ _ _ _ hne]
          exact hacc
        · rw [if_neg hp]
          exact hacc
  apply hgen _ _ hkey
  simp [mapIndex]

/-- The route that `FakeRouter.Create` returns has the annotations of the
route it was given. -/
theorem fakeClients_keeps_annotations (w w1 : FakeCluster) (ns : String) (route nr : Route)
    (h : fakeClients.routesCreate w ns route = (Except.ok nr, w1)) :
    nr.ObjectMeta.Annotations = route.ObjectMeta.Annotations := by
  simp only [fakeClients, FakeRouter.Create, Prod.mk.injEq, Except.ok.injEq] at h
  obtain ⟨h1, _⟩ := h
  rw [← h1]
  split <;> rfl

/-- Whenever the key of the config is not in `gatewaysMap`,
`syncGatewaysAndRoutes2` with `EventDelete` panics. -/
theorem syncGatewaysAndRoutes2_delete_unknown {σ : Type} (Sum256 : List Nat → Digest)
    (c : Clients σ) (w : σ) (r : route) (curr : Config)
    (h : r.gatewaysMap.lookup (gatewaysMapKey curr.Namespace curr.Name) = none) :
    syncGatewaysAndRoutes2 Sum256 c w r Event.EventDelete curr = none := by
  simp [syncGatewaysAndRoutes2, h]

/-! ## The properties of the route integration -/

/-- Each digit of `hextable` reads back as its index. -/
theorem fromHexChar_hextable (i : Nat) (h : i < 16) :
    fromHexChar (hextable.getD i '0') = some i := by
  interval_cases i <;> decide

/-- Reading the encoding of bytes back gives the bytes: `EncodeToString`
writes, for each byte, its high digit and then its low digit, in lower case. -/
theorem decodeHex_EncodeToString (src : List Nat) (h : ∀ v ∈ src, v < 256) :
    decodeHex (EncodeToString src).data = some src := by
  induction src with
  | nil => rfl
  | cons v rest ih =>
    have hv : v < 256 := h v (List.mem_cons_self _ _)
    have hrest := ih fun b hb => h b (List.mem_cons_of_mem _ hb)
    have hhi : v / 16 % 16 < 16 := Nat.mod_lt _ (by decide)
    have hlo : v % 16 < 16 := Nat.mod_lt _ (by decide)
    show decodeHex (hextable.getD (v / 16 % 16) '0' :: hextable.getD (v % 16) '0'
      :: (EncodeToString rest).data) = _
    simp only [decodeHex, fromHexChar_hextable _ hhi, fromHexChar_hextable _ hlo, hrest,
      Option.some.injEq, List.cons.injEq, and_true]
    omega

/-- The UTF-8 encoding of a character below 128 is the one byte of its code. -/
theorem utf8EncodeChar_ascii (c : Char) (h : c.toNat < 128) :
    (String.utf8EncodeChar c).map UInt8.toNat = [c.toNat] := by
  have hc : c.toNat = c.val.toNat := rfl
  have hv : c.val ≤ 0x7f := by
    rw [UInt32.le_def]
    show c.val.toNat ≤ 127
    omega
  simp only [String.utf8EncodeChar, hv, if_true, List.map_cons, List.map_nil]
  congr 1
  show (UInt8.ofNat c.val.toNat).toNat = c.val.toNat
  simp only [UInt8.ofNat, UInt8.toNat, BitVec.toNat_ofNat]
  omega

/-- The bytes of a name made of characters below 128 are the codes of its
characters, in order. -/
theorem bytesOf_ascii (chars : List Char) (h : ∀ c ∈ chars, c.toNat < 128) :
    bytesOf (String.mk chars) = chars.map Char.toNat := by
  induction chars with
  | nil => rfl
  | cons c rest ih =>
    have hrest := ih fun b hb => h b (List.mem_cons_of_mem _ hb)
    simp only [bytesOf, List.flatMap_cons, List.map_cons] at hrest ⊢
    rw [utf8EncodeChar_ascii c (h c (List.mem_cons_self _ _)), hrest]
    rfl

/-- C24 (hostHash): `hostHash(name)` is `hex.EncodeToString` of the first 8
bytes of `Sum256` of the bytes of the name, with `star` for the empty name.
Read back as hexadecimal digits in lower case, two a byte, it gives exactly
these 8 bytes; it has exactly 16 characters, all among `0123456789abcdef`;
and `hostHash("")` is `hostHash("star")`.  The bytes of the name are its UTF-8
encoding: the character codes for a name of characters below 128, and two,
three and four bytes for the characters 233, 8364 and 128512.  With a digest
that shows its input, `hostHash` of `a.com` spells the bytes of `a.com` and
`hostHash` of the empty name spells the bytes of `star`. -/
theorem C24_hostHash (Sum256 : List Nat → Digest) (name : String) (chars : List Char) :
    hostHash Sum256 name
      = EncodeToString
          ((Sum256 (bytesOf (if name = "" then "star" else name))).val.take 8) ∧
    decodeHex (hostHash Sum256 name).data
      = some ((Sum256 (bytesOf (if name = "" then "star" else name))).val.take 8) ∧
    (hostHash Sum256 name).length = 16 ∧
    (∀ ch ∈ (hostHash Sum256 name).toList, ch ∈ "0123456789abcdef".toList) ∧
    hostHash Sum256 "" = hostHash Sum256 "star" ∧
    ((∀ c ∈ chars, c.toNat < 128) → bytesOf (String.mk chars) = chars.map Char.toNat) ∧
    bytesOf "star" = [115, 116, 97, 114] ∧
    bytesOf (String.mk [Char.ofNat 233, Char.ofNat 8364, Char.ofNat 128512])
      = [195, 169, 226, 130, 172, 240, 159, 152, 128] ∧
    EncodeToString [0, 1, 171, 255] = "0001abff" ∧
    hostHash exampleCopySum256 "a.com" = "612e636f6d000000" ∧
    hostHash exampleCopySum256 "" = "7374617200000000" := by
  refine ⟨rfl, ?_, ?_, ?_, rfl, bytesOf_ascii chars, by decide, by decide, by decide,
    by decide, by decide⟩
  · apply decodeHex_EncodeToString
    intro v hv
    exact (Sum256 (bytesOf (if name = "" then "star" else name))).property.2 v
      (List.mem_of_mem_take hv)
  · simp only [hostHash, EncodeToString_length, List.length_take,
      (Sum256 (bytesOf (if name = "" then "star" else name))).property.1]
    rfl
  · exact EncodeToString_hex _

/-- C24, on the name `a.com` and the digest that shows its input. -/
theorem C24_hostHash_witness :
    (∀ c ∈ "a.com".data, c.toNat < 128) ∧
    hostHash exampleCopySum256 "a.com"
      = EncodeToString
          ((exampleCopySum256 (bytesOf (if "a.com" = "" then "star" else "a.com"))).val.take 8) ∧
    decodeHex (hostHash exampleCopySum256 "a.com").data
      = some ((exampleCopySum256
          (bytesOf (if "a.com" = "" then "star" else "a.com"))).val.take 8) ∧
    (hostHash exampleCopySum256 "a.com").length = 16 ∧
    (∀ ch ∈ (hostHash exampleCopySum256 "a.com").toList, ch ∈ "0123456789abcdef".toList) ∧
    hostHash exampleCopySum256 "" = hostHash exampleCopySum256 "star" ∧
    ((∀ c ∈ "a.com".data, c.toNat < 128) →
      bytesOf (String.mk "a.com".data) = "a.com".data.map Char.toNat) ∧
    bytesOf "star" = [115, 116, 97, 114] ∧
    bytesOf (String.mk [Char.ofNat 233, Char.ofNat 8364, Char.ofNat 128512])
      = [195, 169, 226, 130, 172, 240, 159, 152, 128] ∧
    EncodeToString [0, 1, 171, 255] = "0001abff" ∧
    hostHash exampleCopySum256 "a.com" = "612e636f6d000000" ∧
    hostHash exampleCopySum256 "" = "7374617200000000" :=
  ⟨by decide, C24_hostHash exampleCopySum256 "a.com" "a.com".data⟩

/-- C27 (deleting an unknown gateway), evaluated on the code: for a `route`
with an empty `gatewaysMap`, `syncGatewaysAndRoutes2(EventDelete, cfg)` does
not return the error it has prepared: it panics on `syncRoute.routes`, the
pointer `syncRoute` being nil. -/
theorem C27_delete_unknown_gateway_panics :
    exampleRoute.gatewaysMap.lookup
      (gatewaysMapKey exampleGatewayA.Namespace exampleGatewayA.Name) = none ∧
    syncGatewaysAndRoutes2 exampleSum256 fakeClients exampleCluster exampleRoute
      Event.EventDelete exampleGatewayA = none :=
  ⟨rfl, rfl⟩

/-- C28 as stated fails.  An annotation `maistra.io/original-host` on the
gateway is assigned over the one `createRoute` has set, so `getHost` of the
route gives the value of the gateway annotation; and for the empty original
host `getHost` falls back to the host of the route, which the router has
generated. -/
theorem C28_original_host_lost :
    ((createRoute exampleSum256 fakeClients exampleCluster exampleRoute
        { exampleGatewayB.toMeta with
          Annotations := [("maistra.io/original-host", "evil.com")] }
        exampleGatewaySpecB "b.com" none).1.toOption.map getHost = some "evil.com") ∧
    ((createRoute exampleSum256 fakeClients exampleCluster exampleRoute
        exampleGatewayB.toMeta exampleGatewaySpecB "" none).1.toOption.map getHost
      = some "generated-host1.com") :=
  ⟨by decide, by decide⟩

/-- C28, amended: when no annotation of the gateway has the key
`maistra.io/original-host`, the original host is not empty, and the router
returns the created route with the annotations it was given (as
`FakeRouter.Create` does), every route that `createRoute` returns has the
original host under that annotation, and `getHost` of it is the original
host. -/
theorem C28_original_host_round_trip {σ : Type} (Sum256 : List Nat → Digest) (c : Clients σ)
    (w : σ) (r : route) (metadata : Meta) (gateway : Gateway) (originalHost : String)
    (tls : Option ServerTLSSettings)
    (hkeep : ∀ w ns route nr w1, c.routesCreate w ns route = (Except.ok nr, w1) →
      nr.ObjectMeta.Annotations = route.ObjectMeta.Annotations)
    (hhost : originalHost ≠ "")
    (hkey : ∀ v, ( originalHostAnnotation, v) ∉ metadata.Annotations) :
    ∀ nr w1, createRoute Sum256 c w r metadata gateway originalHost tls = (Except.ok nr, w1) →
      mapIndex nr.ObjectMeta.Annotations originalHostAnnotation = originalHost ∧
      getHost nr = originalHost := by
  intro nr w1 h
  have hann : mapIndex nr.ObjectMeta.Annotations originalHostAnnotation = originalHost := by
    unfold createRoute at h
    simp only at h
    split at h
    · simp at h
    · split at h
      · simp at h
      · rename_i heq
        simp only [Prod.mk.injEq, Except.ok.injEq] at h
        obtain ⟨rfl, _⟩ := h
        rw [hkeep _ _ _ _ _ heq]
        exact routeAnnotations_originalHost metadata originalHost hkey
  refine ⟨hann, ?_⟩
  simp [getHost, hann, hhost]

/-- C28 amended, on the gateway `gw-b` and its host `b.com`. -/
theorem C28_original_host_round_trip_witness :
    (∀ w ns route nr w1, fakeClients.routesCreate w ns route = (Except.ok nr, w1) →
      nr.ObjectMeta.Annotations = route.ObjectMeta.Annotations) ∧
    "b.com" ≠ "" ∧
    (∀ v, ( originalHostAnnotation, v) ∉ exampleGatewayB.toMeta.Annotations) ∧
    (createRoute exampleSum256 fakeClients exampleCluster exampleRoute
        exampleGatewayB.toMeta exampleGatewaySpecB "b.com" none).1.toOption.map getHost
      = some "b.com" ∧
    ∀ nr w1, createRoute exampleSum256 fakeClients exampleCluster exampleRoute
        exampleGatewayB.toMeta exampleGatewaySpecB "b.com" none = (Except.ok nr, w1) →
      mapIndex nr.ObjectMeta.Annotations originalHostAnnotation = "b.com" ∧
      getHost nr = "b.com" :=
  ⟨fun w ns route nr w1 h => fakeClients_keeps_annotations w w1 ns route nr h,
    by decide, (fun v h => by cases h), by decide,
    C28_original_host_round_trip exampleSum256 fakeClients exampleCluster exampleRoute
      exampleGatewayB.toMeta exampleGatewaySpecB "b.com" none
      (fun w ns route nr w1 h => fakeClients_keeps_annotations w w1 ns route nr h)
      (by decide) (fun v h => by cases h)⟩

/-- C29 (syncGatewaysAndRoutes reports every failure), evaluated on the code:
in the example cluster `createRoute` fails for the host `a.com` of the first
gateway and succeeds for the host `b.com` of the second, and
`syncGatewaysAndRoutes` returns nil: `result = multierror.Append(err)` has
replaced the earlier failure by the later success.  With the gateways in the
other order the failure is the last call and is returned. -/
theorem C29_later_success_erases_failure :
    (∃ msg, (createRoute exampleSum256 fakeClients exampleCluster exampleRoute
        exampleGatewayA.toMeta
        { Servers := [{ Hosts := ["a.com"], Tls := none }], Selector := [("istio", "nomatch")] }
        "a.com" none).1 = Except.error msg) ∧
    (syncGatewaysAndRoutes exampleSum256 fakeClients exampleCluster exampleRoute).map
        (fun res => res.1) = some none ∧
    ((syncGatewaysAndRoutes exampleSum256 fakeClients
        { exampleCluster with configs := [exampleGatewayB, exampleGatewayA] }
        exampleRoute).map (fun res => res.1.isSome)) = some true :=
  ⟨⟨_, rfl⟩, rfl, rfl⟩

/-- C30 (findConfig): `findConfig` returns the first item of the list whose
name, namespace and resource version all equal the arguments, with a nil
error, and the zero `Config` with the error `config not found` when there is
no such item; the latter is returned exactly when no item matches. -/
theorem C30_findConfig (list : List Config) (name namespace_ resourceVersion : String) :
    findConfig list name namespace_ resourceVersion
      = (match list.find? fun item => decide (item.Name = name ∧ item.Namespace = namespace_ ∧
            item.ResourceVersion = resourceVersion) with
        | some item => (item, none)
        | none => (Config.zero, some "config not found")) ∧
    (findConfig list name namespace_ resourceVersion = (Config.zero, some "config not found")
      ↔ ∀ item ∈ list, ¬ (item.Name = name ∧ item.Namespace = namespace_ ∧
          item.ResourceVersion = resourceVersion)) ∧
    ((findConfig list name namespace_ resourceVersion).2 = none
      ↔ ∃ item ∈ list, item.Name = name ∧ item.Namespace = namespace_ ∧
          item.ResourceVersion = resourceVersion) := by
  induction list with
  | nil => simp [findConfig]
  | cons item rest ih =>
    obtain ⟨ih1, ih2, ih3⟩ := ih
    by_cases hm : item.Name = name ∧ item.Namespace = namespace_ ∧
        item.ResourceVersion = resourceVersion
    · refine ⟨by simp [findConfig, hm, List.find?_cons], ?_, ?_⟩
      · simp only [findConfig, hm, and_self, if_true, Prod.mk.injEq, List.mem_cons,
          forall_eq_or_imp, not_true_eq_false, false_and]
        simp
      · simp only [findConfig, hm, and_self, if_true, List.mem_cons, exists_eq_or_imp,
          true_or]
    · refine ⟨?_, ?_, ?_⟩
      · simp only [findConfig, hm, if_false, List.find?_cons, decide_False]
        exact ih1
      · simp only [findConfig, hm, if_false, List.mem_cons, forall_eq_or_imp,
          not_false_eq_true, true_and]
        exact ih2
      · simp only [findConfig, hm, if_false, List.mem_cons, exists_eq_or_imp, false_or]
        exact ih3

end ior
